import Mathlib

/-!
# EarlyRise temporal admission and escalation engine — verification

Shallow embedding of the check-in admission pipeline, anti-cheat sub-engine,
access lifecycle resolver, penalty escalation sweep and subscription sweep of
the EarlyRise repository (apps/api/src/routes/checkin.ts, admin.ts,
utils/time.ts), together with proofs about them.

Conventions of the embedding:
* Absolute UTC instants are `Int` milliseconds (JS `Date.now()` epoch ms).
* Time zones are fixed GMT offsets in minutes (`parseGmtOffsetToMinutes`
  output); all claims concern the fixed-offset path of `getLocalParts`.
* The relational store is modelled as in-memory lists; each query keeps the
  filters of the corresponding supabase query.  The single active challenge is
  a `Nat` parameter `chId`; every table row carries its `challenge_id`.
* `/` and `%` on `Int` are Euclidean (nonnegative remainder for positive
  modulus), which coincides with JS floor semantics for positive divisors.
-/

namespace EarlyRise

/-! ## Time Window Evaluator (utils/time.ts) -/

/-- `minutesOfDay (getLocalParts now tz)` for a fixed-offset zone:
the source shifts the instant by the offset (`new Date(date.getTime() +
off * 60000)`) and reads UTC hour/minute; in ms arithmetic this is
`((now + off*60000) / 60000) % 1440`. -/
def localMinuteOfDay (nowMs offMin : Int) : Int :=
  ((nowMs + offMin * 60000) / 60000) % 1440

/-- The local calendar day of an instant, as a day index (the source renders
it as a `YYYY-MM-DD` string used purely as a dedup key; the index is a
faithful stand-in for the key). -/
def localDayIndex (nowMs offMin : Int) : Int :=
  (nowMs + offMin * 60000) / 86400000

/-- Result of `utcRangeForLocalDay`: the UTC instant range of the local
midnight-to-midnight day plus the local date key. -/
structure UtcDayRange where
  startMs : Int
  endMs : Int
  localDay : Int
deriving DecidableEq, Repr

/-- `utcRangeForLocalDay` (utils/time.ts): `startUtcMs = localMidnightAsUtcMs
- offMin*60000`, `endUtcMs = startUtcMs + 86400000 - 1`. -/
def utcRangeForLocalDay (nowMs offMin : Int) : UtcDayRange :=
  let day := localDayIndex nowMs offMin
  let startMs := day * 86400000 - offMin * 60000
  { startMs := startMs, endMs := startMs + 86400000 - 1, localDay := day }

/-- `inMinutesRangeCircular` (routes/checkin.ts): inclusive range on a
circular 0..1439 clock; wraps past midnight when `start > end`. -/
def inMinutesRangeCircular (nowMinutes startMinutes endMinutes : Int) : Bool :=
  if startMinutes ≤ endMinutes then
    decide (startMinutes ≤ nowMinutes ∧ nowMinutes ≤ endMinutes)
  else
    decide (startMinutes ≤ nowMinutes ∨ nowMinutes ≤ endMinutes)

/-! ## Data model -/

inductive WakeMode
  | fixed
  | flex
deriving DecidableEq, Repr

/-- A `participations` row.  `wake_time_local` is the source's `HH:MM` string
after `parseTimeHHMM`, stored as minutes of the local day (`none` when the
column is empty or unparseable). -/
structure Participation where
  id : Nat
  user_id : Nat
  challenge_id : Nat
  wake_mode : WakeMode
  wake_time_local : Option Nat
  left_at : Option Int
deriving DecidableEq, Repr

inductive Source
  | text
  | voice
deriving DecidableEq, Repr

inductive Status
  | pending
  | approved
  | rejected
deriving DecidableEq, Repr

/-- A `checkins` row.  `is_group_plus` models `raw_text` containing the
`group_plus` marker (the sweep matches it with `ilike '%group_plus%'`). -/
structure Checkin where
  id : Nat
  user_id : Nat
  challenge_id : Nat
  checkin_at_utc : Int
  source : Source
  status : Status
  reject_reason : Option String := none
  anticheat_passed : Bool := false
  is_group_plus : Bool := false
deriving DecidableEq, Repr

/-! ## Group tap decision (POST /bot/checkin/plus) -/

inductive PlusResult
  | approved
  | rejected (reason : String)
deriving DecidableEq, Repr

/-- The admission decision of `/bot/checkin/plus` after the settings and
active-challenge gates: `not_joined` without an active participation;
flex mode always accepted; fixed mode accepted iff the local minute is in
the circular window `[wake-55, wake+10]` (`missing_wake_time` when the wake
time does not parse). -/
def plusDecision (part : Option Participation) (nowMs offMin : Int) : PlusResult :=
  match part with
  | none => .rejected "not_joined"
  | some p =>
    if p.left_at.isSome then .rejected "not_joined"
    else if p.wake_mode = .flex then .approved
    else
      match p.wake_time_local with
      | none => .rejected "missing_wake_time"
      | some w =>
        let nowMinutes := localMinuteOfDay nowMs offMin
        let wakeMinutes : Int := (w : Int)
        let earliest := (wakeMinutes - 55 + 1440) % 1440
        let latest := (wakeMinutes + 10) % 1440
        if inMinutesRangeCircular nowMinutes earliest latest then .approved
        else .rejected "outside_window"

/-! ## Check-in admission pipeline: voice and DM-text direct reports -/

/-- A `users` row (only the fields the pipeline reads: identity and the
parsed fixed GMT offset of `users.timezone`; `"GMT+00:00"` default is offset
0). -/
structure User where
  id : Nat
  tzOffsetMin : Int
deriving DecidableEq, Repr

inductive ACStatus
  | pending
  | passed
  | failed
  | expired
deriving DecidableEq, Repr

/-- An `anti_cheat_challenges` row. -/
structure AntiCheat where
  id : Nat
  checkin_id : Nat
  user_id : Nat
  challenge_id : Nat
  answer_int : Int
  attempts : Nat
  status : ACStatus
  expires_at_utc : Int
deriving DecidableEq, Repr

/-- The slice of the relational store the admission pipeline and anti-cheat
sub-engine read and write. -/
structure Store where
  participations : List Participation
  checkins : List Checkin
  antiCheats : List AntiCheat
  nextId : Nat
deriving DecidableEq, Repr

def findParticipation (ps : List Participation) (user ch : Nat) : Option Participation :=
  ps.find? (fun p => decide (p.user_id = user ∧ p.challenge_id = ch))

/-- `ensureParticipation` (routes/checkin.ts): returns the existing active
row, otherwise upserts `{user_id, challenge_id, role: participant, left_at:
null}` — re-activating a left row (other columns keep their values) or
inserting a fresh row with the schema defaults (`wake_mode = fixed`,
`wake_time_local` null). -/
def ensureParticipation (ps : List Participation) (user ch : Nat) (freshId : Nat) :
    List Participation × Participation :=
  match findParticipation ps user ch with
  | some p =>
    if p.left_at = none then (ps, p)
    else
      let p' := { p with left_at := none }
      (ps.map (fun q => if q.user_id = user ∧ q.challenge_id = ch then p' else q), p')
  | none =>
    let p' : Participation :=
      { id := freshId, user_id := user, challenge_id := ch,
        wake_mode := .fixed, wake_time_local := none, left_at := none }
    (ps ++ [p'], p')

def isVoiceForDay (c : Checkin) (user ch : Nat) (r : UtcDayRange) : Bool :=
  decide (c.user_id = user ∧ c.challenge_id = ch ∧ c.source = Source.voice ∧
    (c.status = Status.pending ∨ c.status = Status.approved) ∧
    r.startMs ≤ c.checkin_at_utc ∧ c.checkin_at_utc ≤ r.endMs)

/-- `hasVoiceCheckinForLocalDay` (routes/checkin.ts): a `pending` or
`approved` voice-source check-in of this user and challenge inside the UTC
range of the user's current local day. -/
def hasVoiceCheckinForLocalDay (checkins : List Checkin) (user ch : Nat)
    (offMin nowMs : Int) : Bool :=
  let r := utcRangeForLocalDay nowMs offMin
  checkins.any (fun c => isVoiceForDay c user ch r)

/-- Number of `pending`/`approved` voice-source check-ins of a user inside a
local-day UTC range (specification-side counter for the dedup invariant). -/
def countVoiceForDay (checkins : List Checkin) (user ch : Nat) (r : UtcDayRange) : Nat :=
  (checkins.filter (fun c => isVoiceForDay c user ch r)).length

/-- The penalty-mode gate of `/bot/checkin/voice`: for an active
participation in a non-flex mode with a parseable wake time, the report is
refused once the local minute exceeds `wake + 30`. -/
def voicePenaltyGate (ps : List Participation) (user ch : Nat) (offMin nowMs : Int) : Bool :=
  match findParticipation ps user ch with
  | none => false
  | some p =>
    if p.left_at = none ∧ p.wake_mode ≠ .flex then
      match p.wake_time_local with
      | some w => decide (localMinuteOfDay nowMs offMin > (w : Int) + 30)
      | none => false
    else false

inductive SubmitError
  | challenge_inactive
  | penalty_mode
  | already_voice_today
deriving DecidableEq, Repr

inductive SubmitResult
  | ok (c : Checkin)
  | rejected (e : SubmitError)
deriving DecidableEq, Repr

/-- Insert the `pending` voice check-in together with its fresh anti-cheat
challenge (`attempts 0`, `status pending`, expiry `now + 2 minutes`);
`acAnswer` stands for the answer picked by `generateAntiCheat()`. -/
def insertVoiceCheckin (s : Store) (u : User) (ch : Nat) (nowMs acAnswer : Int) :
    SubmitResult × Store :=
  let c : Checkin :=
    { id := s.nextId, user_id := u.id, challenge_id := ch, checkin_at_utc := nowMs,
      source := .voice, status := .pending }
  let a : AntiCheat :=
    { id := s.nextId + 1, checkin_id := c.id, user_id := u.id, challenge_id := ch,
      answer_int := acAnswer, attempts := 0, status := .pending,
      expires_at_utc := nowMs + 2 * 60 * 1000 }
  (.ok c,
    { s with checkins := s.checkins ++ [c], antiCheats := s.antiCheats ++ [a],
             nextId := s.nextId + 2 })

/-- `POST /bot/checkin/voice` for an existing user `u` and the active
challenge `ch` (`challengeActive` is the `settings.challenge_active` gate;
the user upsert, audio storage and curator-reply calls are external and do
not touch the modelled state). -/
def submitVoice (s : Store) (u : User) (ch : Nat) (challengeActive : Bool)
    (nowMs acAnswer : Int) : SubmitResult × Store :=
  if !challengeActive then (.rejected .challenge_inactive, s)
  else
    let ps := (ensureParticipation s.participations u.id ch s.nextId).1
    let s := { s with participations := ps }
    if voicePenaltyGate ps u.id ch u.tzOffsetMin nowMs then
      (.rejected .penalty_mode, s)
    else if hasVoiceCheckinForLocalDay s.checkins u.id ch u.tzOffsetMin nowMs then
      (.rejected .already_voice_today, s)
    else
      insertVoiceCheckin s u ch nowMs acAnswer

/-- `POST /bot/checkin/dm_text` for an existing user `u` and the active
challenge `ch`.  The handler has no penalty-mode gate: after the settings
gates and `ensureParticipation` it goes straight to the per-local-day dedup
and then inserts a `pending` voice-source check-in. -/
def submitDmText (s : Store) (u : User) (ch : Nat) (challengeActive : Bool)
    (nowMs acAnswer : Int) : SubmitResult × Store :=
  if !challengeActive then (.rejected .challenge_inactive, s)
  else
    let ps := (ensureParticipation s.participations u.id ch s.nextId).1
    let s := { s with participations := ps }
    if hasVoiceCheckinForLocalDay s.checkins u.id ch u.tzOffsetMin nowMs then
      (.rejected .already_voice_today, s)
    else
      insertVoiceCheckin s u ch nowMs acAnswer

/-! ## Anti-Cheat sub-engine (POST /bot/anti-cheat/solve) -/

inductive SolveResult
  | solved
  | checkin_not_found
  | wrong_checkin
  | challenge_not_found
  | not_pending
  | expired_result
  | invalid_answer
  | failed_result
  | wrong_answer (remaining : Nat)
deriving DecidableEq, Repr

def updateCheckin (cs : List Checkin) (id : Nat) (st : Status)
    (reason : Option String) (acPassed : Bool) : List Checkin :=
  cs.map (fun c =>
    if c.id = id then
      { c with status := st, reject_reason := reason, anticheat_passed := acPassed }
    else c)

def updateAntiCheat (as_ : List AntiCheat) (id : Nat) (st : ACStatus) (attempts : Nat) :
    List AntiCheat :=
  as_.map (fun a => if a.id = id then { a with status := st, attempts := attempts } else a)

/-- `POST /bot/anti-cheat/solve` for user `userId` and active challenge
`chId`; `answer` is the submitted text after numeric parsing (`none` when it
does not parse).  Wrong parseable answers increment `attempts`; the third
wrong answer fails the challenge and rejects the owning check-in
(`anticheat_failed`); a correct answer passes it and approves the check-in;
expiry rejects it (`anticheat_expired`). -/
def solveAntiCheat (s : Store) (userId chId checkin_id : Nat)
    (answer : Option Int) (nowMs : Int) : SolveResult × Store :=
  match s.checkins.find? (fun c => decide (c.id = checkin_id)) with
  | none => (.checkin_not_found, s)
  | some c =>
    if c.user_id ≠ userId then (.checkin_not_found, s)
    else if c.challenge_id ≠ chId ∨ c.source ≠ .voice then (.wrong_checkin, s)
    else
      match s.antiCheats.find? (fun a => decide (a.checkin_id = checkin_id)) with
      | none => (.challenge_not_found, s)
      | some a =>
        if a.status ≠ .pending then (.not_pending, s)
        else if a.expires_at_utc ≤ nowMs then
          (.expired_result,
            { s with
              antiCheats := updateAntiCheat s.antiCheats a.id .expired a.attempts,
              checkins := updateCheckin s.checkins checkin_id .rejected
                (some "anticheat_expired") c.anticheat_passed })
        else
          match answer with
          | none => (.invalid_answer, s)
          | some ans =>
            if ans ≠ a.answer_int then
              let attempts := a.attempts + 1
              if attempts ≥ 3 then
                (.failed_result,
                  { s with
                    antiCheats := updateAntiCheat s.antiCheats a.id .failed attempts,
                    checkins := updateCheckin s.checkins checkin_id .rejected
                      (some "anticheat_failed") c.anticheat_passed })
              else
                (.wrong_answer (3 - attempts),
                  { s with antiCheats := updateAntiCheat s.antiCheats a.id .pending attempts })
            else
              (.solved,
                { s with
                  antiCheats := updateAntiCheat s.antiCheats a.id .passed a.attempts,
                  checkins := updateCheckin s.checkins checkin_id .approved
                    c.reject_reason true })

/-! ## Access Lifecycle Resolver (getPaidAccessInfo, /bot/me) -/

/-- A `payments` row (the columns the resolver reads). -/
structure Payment where
  created_at : Int
  plan_code : Option String
  amount : Option Int
  status : String
deriving DecidableEq, Repr

/-- The `code` binding of `paidDaysFromPlanOrAmount`: the source computes
`String(plan_code || "").trim().toLowerCase()`; `plan_code` here stands for
the already-normalized code (`none` for a null column). -/
def planCode (plan_code : Option String) : String :=
  plan_code.getD ""

/-- The amount-based fallback table of `paidDaysFromPlanOrAmount`
(backward compatibility by price). -/
def paidDaysFromAmount (amount : Option Int) : Option Nat × Bool :=
  match amount with
  | some 3000 => (none, true)
  | some 490 => (some 30, false)
  | some 890 => (some 60, false)
  | some 990 => (some 60, false)
  | some 1400 => (some 90, false)
  | some 1490 => (some 90, false)
  | _ => (none, false)

/-- `paidDaysFromPlanOrAmount` (routes/checkin.ts): plan codes
`life`/`forever`/`support` (and legacy amount 3000) map to forever; the day
plans and legacy amounts map to 30/60/90 access days; anything else maps to
no days.  Returns `(days, is_forever)`. -/
def paidDaysFromPlanOrAmount (plan_code : Option String) (amount : Option Int) :
    Option Nat × Bool :=
  if planCode plan_code = "life" ∨ planCode plan_code = "forever" ∨
      planCode plan_code = "support" then (none, true)
  else if planCode plan_code = "d30" ∨ planCode plan_code = "30" ∨
      planCode plan_code = "30d" then (some 30, false)
  else if planCode plan_code = "d60" ∨ planCode plan_code = "60" ∨
      planCode plan_code = "60d" then (some 60, false)
  else if planCode plan_code = "d90" ∨ planCode plan_code = "90" ∨
      planCode plan_code = "90d" then (some 90, false)
  else paidDaysFromAmount amount

structure PaidAccessInfo where
  is_active_paid : Bool
  has_any_paid : Bool
  is_forever : Bool
  paid_until_utc : Option Int
deriving DecidableEq, Repr

/-- One iteration of the `maxUntil` accumulation of `getPaidAccessInfo`:
forever rows are skipped, each day-counted row contributes
`created_at + days*86400000`, the latest wins. -/
def maxUntilStep (acc : Option Int) (r : Payment) : Option Int :=
  let info := paidDaysFromPlanOrAmount r.plan_code r.amount
  if info.2 then acc
  else
    match info.1 with
    | some d =>
      let until_ := r.created_at + (d : Int) * 86400000
      match acc with
      | none => some until_
      | some m => if until_ > m then some until_ else some m
    | none => acc

def maxUntilFold (rows : List Payment) (acc : Option Int) : Option Int :=
  rows.foldl maxUntilStep acc

/-- `getPaidAccessInfo` (routes/checkin.ts): over this user's `status=paid`
payments, a forever payment short-circuits to permanently paid; otherwise
the user is actively paid iff now is strictly before the latest computed
expiry (`isFutureIso`). -/
def getPaidAccessInfo (payments : List Payment) (nowMs : Int) : PaidAccessInfo :=
  let rows := payments.filter (fun p => p.status = "paid")
  if rows.isEmpty then
    { is_active_paid := false, has_any_paid := false, is_forever := false,
      paid_until_utc := none }
  else
    let is_forever := rows.any (fun r => (paidDaysFromPlanOrAmount r.plan_code r.amount).2)
    let maxUntil := maxUntilFold rows none
    if is_forever then
      { is_active_paid := true, has_any_paid := true, is_forever := true,
        paid_until_utc := none }
    else
      let is_active_paid :=
        match maxUntil with
        | some m => decide (nowMs < m)
        | none => false
      { is_active_paid := is_active_paid, has_any_paid := true, is_forever := false,
        paid_until_utc := maxUntil }

inductive AccessStatus
  | paid
  | trial
  | expired
  | lead
deriving DecidableEq, Repr

/-- `getTrialUntilUtc`: 7 days after the most recent `trial_7d_start`
marker (`trialStart`, already the latest such marker, `none` when absent). -/
def getTrialUntilUtc (trialStart : Option Int) : Option Int :=
  trialStart.map (fun t => t + 7 * 86400000)

/-- The access classification of `GET /bot/me/:telegramUserId`:
paid / trial / expired / lead from `getPaidAccessInfo` and the trial
marker (`isFutureIso` is a strict comparison). -/
def classifyAccess (payments : List Payment) (trialStart : Option Int)
    (nowMs : Int) : AccessStatus :=
  let paidInfo := getPaidAccessInfo payments nowMs
  let trialActive :=
    match getTrialUntilUtc trialStart with
    | some t => decide (nowMs < t)
    | none => false
  if paidInfo.is_active_paid then .paid
  else if trialActive then .trial
  else if paidInfo.has_any_paid then .expired
  else .lead

/-! ## Penalty Escalation Sweep (POST /admin/penalties/run, dry_run = false)

The `wallet_ledger` reason strings are modelled by the inductive `Reason`
(`penalty:miss:<localDate>`, `penalty:notice_sent:<localDate>`,
`penalty:pay_intent:<localDate>|<pid>|<amount>`,
`penalty:pay_notified:<localDate>|<pid>`, anything else); the
`ilike 'penalty:miss:%'` prefix matches exactly the `missOn` constructor,
and `ilike 'penalty:pay_intent:%'` exactly `payIntent`. -/

structure PenUser where
  id : Nat
  telegram_user_id : Option Int
  tzOffsetMin : Int
deriving DecidableEq, Repr

inductive Reason
  | missOn (day : Int)
  | noticeOn (day : Int)
  | payIntent (day : Int) (pid : Nat) (amount : Int)
  | payNotified (day : Int) (pid : Nat)
  | otherReason (tag : Nat)
deriving DecidableEq, Repr

def Reason.isMiss : Reason → Bool
  | .missOn _ => true
  | _ => false

def Reason.isPayIntent : Reason → Bool
  | .payIntent _ _ _ => true
  | _ => false

structure LedgerRow where
  user_id : Nat
  challenge_id : Nat
  reason : Reason
  created_at : Int
deriving DecidableEq, Repr

structure BuddyPair where
  participation_a_id : Nat
  participation_b_id : Nat
  challenge_id : Nat
  active : Bool
deriving DecidableEq, Repr

structure PenPayment where
  user_id : Nat
  challenge_id : Nat
  provider_payment_id : Nat
  status : String
deriving DecidableEq, Repr

structure PenState where
  participations : List Participation
  users : List PenUser
  ledger : List LedgerRow
  checkins : List Checkin
  buddy_pairs : List BuddyPair
  payments : List PenPayment
deriving DecidableEq, Repr

inductive PenMsg
  | notice (telegram_id : Int) (level squats fine : Nat)
  | kick (telegram_id : Int)
  | finePaid (telegram_id : Int) (amount : Int)
deriving DecidableEq, Repr

/-- `penaltyInfo` (routes/admin.ts): `(squats, fine, kick)` per level. -/
def penaltyInfo (level : Nat) : Nat × Nat × Bool :=
  if level ≤ 1 then (50, 150, false)
  else if level = 2 then (100, 300, false)
  else if level = 3 then (200, 500, false)
  else (0, 0, true)

def hasMarker (ledger : List LedgerRow) (chId user : Nat) (r : Reason) : Bool :=
  ledger.any (fun e => decide (e.challenge_id = chId ∧ e.user_id = user ∧ e.reason = r))

def putMarker (ledger : List LedgerRow) (chId user : Nat) (r : Reason) (nowMs : Int) :
    List LedgerRow :=
  ledger ++ [{ user_id := user, challenge_id := chId, reason := r, created_at := nowMs }]

/-- `missCount`: number of this user's `penalty:miss:%` ledger rows for the
challenge (the query's `limit(5000)` cap is not modelled). -/
def missCount (ledger : List LedgerRow) (chId user : Nat) : Nat :=
  (ledger.filter (fun e =>
    decide (e.challenge_id = chId ∧ e.user_id = user) && e.reason.isMiss)).length

def findUser (users : List PenUser) (id : Nat) : Option PenUser :=
  users.find? (fun u => decide (u.id = id))

def lookupPartUser (parts : List Participation) (pid : Nat) : Option Nat :=
  (parts.find? (fun p => decide (p.id = pid))).map (fun p => p.user_id)

/-- The `buddyOfUser` map: active pairs whose two participation ids resolve
inside the sweep's active-participation snapshot set both directions; a
later pair overwrites an earlier one (JS `Map.set`), hence the reversed
search. -/
def buddyOfUser (parts0 : List Participation) (pairs : List BuddyPair) (chId user : Nat) :
    Option Nat :=
  let resolved := pairs.foldl
    (fun acc bp =>
      if bp.challenge_id = chId ∧ bp.active then
        match lookupPartUser parts0 bp.participation_a_id,
              lookupPartUser parts0 bp.participation_b_id with
        | some a, some b => acc ++ [(a, b), (b, a)]
        | _, _ => acc
      else acc)
    []
  (resolved.reverse.find? (fun e => decide (e.1 = user))).map (fun e => e.2)

/-- An approved group-plus check-in of the user inside the local-day range
(`status=approved`, `source=text`, `raw_text ilike '%group_plus%'`). -/
def hasApprovedPlus (checkins : List Checkin) (chId user : Nat) (r : UtcDayRange) : Bool :=
  checkins.any (fun c =>
    decide (c.user_id = user ∧ c.challenge_id = chId ∧ c.status = Status.approved ∧
      c.source = Source.text ∧ c.is_group_plus = true ∧
      r.startMs ≤ c.checkin_at_utc ∧ c.checkin_at_utc ≤ r.endMs))

/-- The mutable accumulator of one sweep run (participations and ledger rows
are the only tables the sweep writes; `msgs` collects sent notifications). -/
structure SweepAcc where
  participations : List Participation
  ledger : List LedgerRow
  msgs : List PenMsg
deriving DecidableEq, Repr

/-- The miss/notice/penalize tail of one penalty-loop iteration (reached
when no approved group plus exists today): mark a miss (idempotently),
derive the level from the historical miss count, put the notice marker, and
either send the level 1-3 choice notice or, at level ≥ 4, stop the
participation of the user and their active buddy and notify both. -/
def sweepPenalize (chId : Nat) (users : List PenUser) (parts0 : List Participation)
    (pairs : List BuddyPair) (nowMs : Int) (acc : SweepAcc) (p : Participation)
    (tg : Int) (day : Int) : SweepAcc :=
  let alreadyMiss := hasMarker acc.ledger chId p.user_id (.missOn day)
  let count := missCount acc.ledger chId p.user_id
  let level := if alreadyMiss then max 1 count else count + 1
  let ledger1 :=
    if alreadyMiss then acc.ledger
    else putMarker acc.ledger chId p.user_id (.missOn day) nowMs
  let ledger2 := putMarker ledger1 chId p.user_id (.noticeOn day) nowMs
  let info := penaltyInfo level
  if info.2.2 then
    let toKick := p.user_id ::
      (match buddyOfUser parts0 pairs chId p.user_id with
       | some b => [b]
       | none => [])
    let parts' := acc.participations.map (fun q =>
      if q.challenge_id = chId ∧ q.user_id ∈ toKick ∧ q.left_at = none then
        { q with left_at := some nowMs }
      else q)
    let kickMsgs := toKick.filterMap (fun uid =>
      (findUser users uid).bind
        (fun tu => tu.telegram_user_id.map (fun t => PenMsg.kick t)))
    { participations := parts', ledger := ledger2, msgs := acc.msgs ++ kickMsgs }
  else
    { acc with ledger := ledger2,
               msgs := acc.msgs ++ [.notice tg level info.1 info.2.1] }

/-- The body of one penalty-loop iteration past the prechecks: skip when the
day's notice was already sent; with an approved group plus today only put
the notice marker; otherwise penalize. -/
def sweepCore (chId : Nat) (users : List PenUser) (parts0 : List Participation)
    (pairs : List BuddyPair) (checkins : List Checkin) (nowMs : Int)
    (acc : SweepAcc) (p : Participation) (u : PenUser) (tg : Int) : SweepAcc :=
  let r := utcRangeForLocalDay nowMs u.tzOffsetMin
  let day := r.localDay
  if hasMarker acc.ledger chId p.user_id (.noticeOn day) then acc
  else if hasApprovedPlus checkins chId p.user_id r then
    { acc with ledger := putMarker acc.ledger chId p.user_id (.noticeOn day) nowMs }
  else sweepPenalize chId users parts0 pairs nowMs acc p tg day

/-- One iteration of the main penalty loop for participation `p`
(routes/admin.ts lines 1297-1419): skip on missing user / flex mode /
unparseable wake time / local time before wake+30, then run `sweepCore`. -/
def sweepStep (chId : Nat) (users : List PenUser) (parts0 : List Participation)
    (pairs : List BuddyPair) (checkins : List Checkin) (nowMs : Int)
    (acc : SweepAcc) (p : Participation) : SweepAcc :=
  match findUser users p.user_id with
  | none => acc
  | some u =>
    match u.telegram_user_id with
    | none => acc
    | some tg =>
      if p.wake_mode = .flex then acc
      else
        match p.wake_time_local with
        | none => acc
        | some w =>
          if localMinuteOfDay nowMs u.tzOffsetMin < (w : Int) + 30 then acc
          else sweepCore chId users parts0 pairs checkins nowMs acc p u tg

/-- The main per-participation loop over the snapshot of active
participations of the challenge. -/
def sweepMain (s : PenState) (chId : Nat) (nowMs : Int) : SweepAcc :=
  let parts0 := s.participations.filter
    (fun p => decide (p.challenge_id = chId ∧ p.left_at = none))
  parts0.foldl (sweepStep chId s.users parts0 s.buddy_pairs s.checkins nowMs)
    { participations := s.participations, ledger := s.ledger, msgs := [] }

/-- One iteration of the fines-paid follow-up loop for pay-intent ledger row
`e`: skip when already notified, when the referenced payment is not `paid`,
or when the user has no telegram id; otherwise record the notified marker
and send the confirmation. -/
def payStep (chId : Nat) (users : List PenUser) (payments : List PenPayment)
    (nowMs : Int) (acc : SweepAcc) (e : LedgerRow) : SweepAcc :=
  match e.reason with
  | .payIntent day pid amount =>
    if hasMarker acc.ledger chId e.user_id (.payNotified day pid) then acc
    else
      match payments.find? (fun p =>
        decide (p.challenge_id = chId ∧ p.user_id = e.user_id ∧
          p.provider_payment_id = pid)) with
      | none => acc
      | some pay =>
        if pay.status ≠ "paid" then acc
        else
          match (findUser users e.user_id).bind (fun u => u.telegram_user_id) with
          | none => acc
          | some tg =>
            { acc with
              ledger := putMarker acc.ledger chId e.user_id (.payNotified day pid) nowMs,
              msgs := acc.msgs ++ [.finePaid tg amount] }
  | _ => acc

/-- The filter of the pay-intent query: challenge rows whose reason matches
`penalty:pay_intent:%` created within the last 3 days. -/
def intentRow (chId : Nat) (nowMs : Int) (e : LedgerRow) : Bool :=
  decide (e.challenge_id = chId) && e.reason.isPayIntent &&
    decide (nowMs - 3 * 86400000 ≤ e.created_at)

/-- The fines-paid follow-up loop: recent (`created_at ≥ now - 3 days`)
`penalty:pay_intent:%` ledger rows of the challenge. -/
def payLoop (chId : Nat) (users : List PenUser) (payments : List PenPayment)
    (nowMs : Int) (acc : SweepAcc) : SweepAcc :=
  (acc.ledger.filter (intentRow chId nowMs)).foldl
    (payStep chId users payments nowMs) acc

/-- `POST /admin/penalties/run` with `dry_run = false`: the main loop
followed by the fines-paid follow-up; returns the updated state and the
notifications sent. -/
def penaltiesRun (s : PenState) (chId : Nat) (nowMs : Int) : PenState × List PenMsg :=
  let acc := payLoop chId s.users s.payments nowMs (sweepMain s chId nowMs)
  ({ s with participations := acc.participations, ledger := acc.ledger }, acc.msgs)

/-! ## Subscription Sweep (POST /admin/subscriptions/run, dry_run = false)

Per-user body of the sweep loop, for the modern schema (the subscription
columns `paid_until`, `reminder_2d_sent_at`, `expiry_prompt_sent_at`,
`kicked_from_chat_at` exist on `users`, so the once-only markers are these
columns, not ledger rows) and with a configured group `chat_id`. -/

structure SubUser where
  id : Nat
  telegram_user_id : Int
  paid_until : Option Int
  next_payment_reminder_at : Option Int
  reminder_2d_sent_at : Option Int
  expiry_prompt_sent_at : Option Int
  kicked_from_chat_at : Option Int
deriving DecidableEq, Repr

inductive SubMsg
  | reminder2d
  | expiryPrompt
  | kickFromChat
deriving DecidableEq, Repr

/-- The `foreverSet` / `maxUntilMs` computation of the subscription sweep
over the user's `status=paid` payment rows (the sweep's local
`paidDaysFromPlanOrAmount` is byte-identical to the one in
routes/checkin.ts): `(isForever, latest expiry in ms)`. -/
def computePaidUntil (payments : List Payment) : Bool × Option Int :=
  let rows := payments.filter (fun p => p.status = "paid")
  (rows.any (fun r => (paidDaysFromPlanOrAmount r.plan_code r.amount).2),
   maxUntilFold rows none)

structure SubUserResult where
  user : SubUser
  leftSet : Bool
  msgs : List SubMsg
deriving DecidableEq, Repr

/-- `alreadySentByCol` for the T-2d reminder:
`Number.isFinite(sentAtMs) && sentAtMs >= reminderAtMs`. -/
def alreadyReminded (u : SubUser) (reminderAt : Int) : Bool :=
  match u.reminder_2d_sent_at with
  | some t => decide (reminderAt ≤ t)
  | none => false

/-- `alreadySentByCol` for the expiry prompt: `sentAtMs >= paidUntilMs`. -/
def alreadyPrompted (u : SubUser) (pu : Int) : Bool :=
  match u.expiry_prompt_sent_at with
  | some t => decide (pu ≤ t)
  | none => false

/-- `alreadyKickedByCol`: `kickedAtMs >= paidUntilMs + dayMs`. -/
def alreadyKicked (u : SubUser) (kickAt : Int) : Bool :=
  match u.kicked_from_chat_at with
  | some t => decide (kickAt ≤ t)
  | none => false

/-- First trigger: the T-2d renewal reminder (`nowMs >= reminderAtMs &&
nowMs < paidUntilMs`, guarded by `reminder_2d_sent_at`). -/
def subStep1 (u : SubUser) (pu nowMs : Int) : SubUser × List SubMsg :=
  if pu - 2 * 86400000 ≤ nowMs ∧ nowMs < pu then
    if alreadyReminded u (pu - 2 * 86400000) then (u, [])
    else ({ u with reminder_2d_sent_at := some nowMs }, [.reminder2d])
  else (u, [])

/-- Second trigger: the expiry prompt between T and T+1d (guarded by
`expiry_prompt_sent_at`) together with the unguarded `left_at = now` update
on a still-active participation. -/
def subStep2 (u : SubUser) (activePart : Bool) (pu nowMs : Int) :
    SubUser × Bool × List SubMsg :=
  if pu ≤ nowMs ∧ nowMs < pu + 86400000 then
    (if alreadyPrompted u pu then u else { u with expiry_prompt_sent_at := some nowMs },
     activePart,
     if alreadyPrompted u pu then [] else [.expiryPrompt])
  else (u, false, [])

/-- Third trigger: group removal (ban then unban) from T+1d onward, guarded
by `kicked_from_chat_at`. -/
def subStep3 (u : SubUser) (pu nowMs : Int) : SubUser × List SubMsg :=
  if pu + 86400000 ≤ nowMs then
    if alreadyKicked u (pu + 86400000) then (u, [])
    else ({ u with kicked_from_chat_at := some nowMs }, [.kickFromChat])
  else (u, [])

/-- The per-user body of `/admin/subscriptions/run` (routes/admin.ts lines
1044-1173): persist the computed dates, then — unless the user is forever or
has no computed expiry — fire the three time-ordered triggers, each guarded
by its own sent-at column (T-2d reminder; expiry prompt plus `left_at = now`
on a still-active participation between T and T+1d; group removal from T+1d
on).  `activePart` is whether the user still has an active participation;
`leftSet` reports the `left_at = now` update. -/
def subscriptionUserRun (u : SubUser) (payments : List Payment) (activePart : Bool)
    (nowMs : Int) : SubUserResult :=
  let fm := computePaidUntil payments
  let isForever := fm.1
  let paidUntilMs := if isForever then none else fm.2
  let reminderAtMs := paidUntilMs.map (fun t => t - 2 * 86400000)
  let u := { u with paid_until := paidUntilMs, next_payment_reminder_at := reminderAtMs }
  match paidUntilMs with
  | none => { user := u, leftSet := false, msgs := [] }
  | some pu =>
    let s1 := subStep1 u pu nowMs
    let s2 := subStep2 s1.1 activePart pu nowMs
    let s3 := subStep3 s2.1 pu nowMs
    { user := s3.1, leftSet := s2.2.1, msgs := s1.2 ++ s2.2.2 ++ s3.2 }

/-! ## Theorems -/

/-- Helper: bounds of `localMinuteOfDay`. -/
theorem localMinuteOfDay_bounds (nowMs offMin : Int) :
    0 ≤ localMinuteOfDay nowMs offMin ∧ localMinuteOfDay nowMs offMin < 1440 := by
  unfold localMinuteOfDay
  constructor <;> omega

/-- Helper: the fixed-mode branch of `plusDecision` is the circular-window
test on `[wake-55, wake+10]`. -/
theorem plusDecision_fixed (p : Participation) (hAct : p.left_at = none)
    (hfix : p.wake_mode = WakeMode.fixed) (w : Nat) (hw : p.wake_time_local = some w)
    (nowMs offMin : Int) :
    plusDecision (some p) nowMs offMin =
      (if inMinutesRangeCircular (localMinuteOfDay nowMs offMin)
          (((w : Int) - 55 + 1440) % 1440) (((w : Int) + 10) % 1440)
       then PlusResult.approved else PlusResult.rejected "outside_window") := by
  simp [plusDecision, hAct, hfix, hw]

/-- Helper: membership in the circular window `[w-55, w+10]` is circular
distance from `w-55` being at most 65 minutes. -/
theorem inCirc_iff (n w : Int) (hn0 : 0 ≤ n) (hn1 : n < 1440)
    (_hw0 : 0 ≤ w) (_hw1 : w < 1440) :
    inMinutesRangeCircular n ((w - 55 + 1440) % 1440) ((w + 10) % 1440) = true ↔
      (n - (w - 55)) % 1440 ≤ 65 := by
  unfold inMinutesRangeCircular
  split_ifs with h <;> simp only [decide_eq_true_eq] <;> omega

/-- C1.  Group-tap admission: with an active participation a flex-mode tap
is always accepted; with fixed wake time `w` (minutes of the local day) the
tap is accepted iff the local now-minute is in the inclusive circular range
`[w-55, w+10]` — equivalently, the circular distance from `w-55` is at most
65 minutes — so taps at exactly `w-55` and `w+10` are accepted, taps at
`w-56` and `w+11` are rejected with reason `outside_window`, and for wake
time 00:10 a tap at local 23:30 (of the previous clock day) is accepted. -/
theorem group_tap_window_c1 (p : Participation) (hAct : p.left_at = none)
    (nowMs offMin : Int) :
    (p.wake_mode = WakeMode.flex → plusDecision (some p) nowMs offMin = .approved) ∧
    (∀ w : Nat, p.wake_mode = WakeMode.fixed → p.wake_time_local = some w → w < 1440 →
      ((plusDecision (some p) nowMs offMin = .approved ↔
          (localMinuteOfDay nowMs offMin - ((w : Int) - 55)) % 1440 ≤ 65) ∧
        (localMinuteOfDay nowMs offMin = ((w : Int) - 55 + 1440) % 1440 →
          plusDecision (some p) nowMs offMin = .approved) ∧
        (localMinuteOfDay nowMs offMin = ((w : Int) + 10) % 1440 →
          plusDecision (some p) nowMs offMin = .approved) ∧
        (localMinuteOfDay nowMs offMin = ((w : Int) - 56 + 1440) % 1440 →
          plusDecision (some p) nowMs offMin = .rejected "outside_window") ∧
        (localMinuteOfDay nowMs offMin = ((w : Int) + 11) % 1440 →
          plusDecision (some p) nowMs offMin = .rejected "outside_window") ∧
        (w = 10 → localMinuteOfDay nowMs offMin = 1410 →
          plusDecision (some p) nowMs offMin = .approved))) := by
  constructor
  · intro hflex
    simp [plusDecision, hAct, hflex]
  · intro w hfix hw hlt
    obtain ⟨hn0, hn1⟩ := localMinuteOfDay_bounds nowMs offMin
    have hw0 : (0 : Int) ≤ (w : Int) := Int.ofNat_nonneg w
    have hw1 : (w : Int) < 1440 := by exact_mod_cast hlt
    have key := inCirc_iff (localMinuteOfDay nowMs offMin) (w : Int) hn0 hn1 hw0 hw1
    rw [plusDecision_fixed p hAct hfix w hw nowMs offMin]
    have hiff : (if inMinutesRangeCircular (localMinuteOfDay nowMs offMin)
          (((w : Int) - 55 + 1440) % 1440) (((w : Int) + 10) % 1440)
        then PlusResult.approved else PlusResult.rejected "outside_window")
          = PlusResult.approved ↔
        (localMinuteOfDay nowMs offMin - ((w : Int) - 55)) % 1440 ≤ 65 := by
      split_ifs with h
      · exact iff_of_true rfl (key.mp h)
      · exact iff_of_false (by simp) (fun hr => h (key.mpr hr))
    refine ⟨hiff, ?_, ?_, ?_, ?_, ?_⟩
    · intro hb
      exact hiff.mpr (by rw [hb]; omega)
    · intro hb
      exact hiff.mpr (by rw [hb]; omega)
    · intro hb
      split_ifs with h
      · exact absurd (key.mp h) (by rw [hb]; omega)
      · rfl
    · intro hb
      split_ifs with h
      · exact absurd (key.mp h) (by rw [hb]; omega)
      · rfl
    · intro hw10 hb
      exact hiff.mpr (by rw [hb, hw10]; omega)

/-- C1 witness: a user in a fixed mode with wake 07:00 in GMT+03:00 tapping
at local 06:10 is accepted. -/
theorem group_tap_window_c1_witness :
    plusDecision
      (some (⟨1, 2, 3, WakeMode.fixed, some 420, none⟩ : Participation))
      11400000 180 = PlusResult.approved :=
  ((group_tap_window_c1 _ rfl 11400000 180).2 420 rfl rfl (by decide)).1.mpr (by decide)

/-- Helper: `find?` over an append when the first part has no hit. -/
theorem find?_append_none {α : Type} (l₁ l₂ : List α) (p : α → Bool)
    (h : l₁.find? p = none) : (l₁ ++ l₂).find? p = l₂.find? p := by
  induction l₁ with
  | nil => rfl
  | cons x xs ih =>
    by_cases hx : p x
    · rw [List.find?_cons_of_pos _ hx] at h
      exact absurd h (by simp)
    · rw [List.find?_cons_of_neg _ hx] at h
      simpa [List.find?_cons_of_neg _ hx] using ih h

/-- Helper: an instant lies inside its own local-day UTC range. -/
theorem mem_own_day_range (nowMs offMin : Int) :
    (utcRangeForLocalDay nowMs offMin).startMs ≤ nowMs ∧
      nowMs ≤ (utcRangeForLocalDay nowMs offMin).endMs := by
  unfold utcRangeForLocalDay localDayIndex
  constructor <;> simp <;> omega

/-- Helper: the daily dedup test is positivity of the dedup counter. -/
theorem hasVoice_iff_count (checkins : List Checkin) (user ch : Nat) (offMin nowMs : Int) :
    hasVoiceCheckinForLocalDay checkins user ch offMin nowMs = true ↔
      0 < countVoiceForDay checkins user ch (utcRangeForLocalDay nowMs offMin) := by
  unfold hasVoiceCheckinForLocalDay countVoiceForDay
  rw [List.any_eq_true, List.length_pos_iff_exists_mem]
  constructor
  · rintro ⟨c, hc, hp⟩
    exact ⟨c, List.mem_filter.mpr ⟨hc, hp⟩⟩
  · rintro ⟨c, hc⟩
    obtain ⟨hc, hp⟩ := List.mem_filter.mp hc
    exact ⟨c, hc, hp⟩

/-- Helper: the dedup counter over an appended row. -/
theorem countVoice_append (checkins : List Checkin) (c : Checkin) (user ch : Nat)
    (r : UtcDayRange) :
    countVoiceForDay (checkins ++ [c]) user ch r =
      countVoiceForDay checkins user ch r + (if isVoiceForDay c user ch r then 1 else 0) := by
  unfold countVoiceForDay
  rw [List.filter_append, List.length_append]
  by_cases hc : isVoiceForDay c user ch r <;> simp [hc]

/-- Helper: with an existing active participation, `ensureParticipation`
changes nothing. -/
theorem ensureParticipation_active (ps : List Participation) (user ch freshId : Nat)
    (p : Participation) (hp : findParticipation ps user ch = some p)
    (hAct : p.left_at = none) :
    ensureParticipation ps user ch freshId = (ps, p) := by
  unfold ensureParticipation
  rw [hp]
  simp [hAct]

/-- Helper: with no participation at all, `ensureParticipation` silently
inserts a fresh active row with the schema defaults. -/
theorem ensureParticipation_missing (ps : List Participation) (user ch freshId : Nat)
    (hp : findParticipation ps user ch = none) :
    ensureParticipation ps user ch freshId =
      (ps ++ [⟨freshId, user, ch, WakeMode.fixed, none, none⟩],
       ⟨freshId, user, ch, WakeMode.fixed, none, none⟩) := by
  unfold ensureParticipation
  rw [hp]

/-- C8 counterexample: a fixed-wake user (wake 07:00, GMT+03:00) at local
08:00 — past the `wake+30` cutoff — has their voice report rejected with
`penalty_mode`, but their DM-text report is admitted as a `pending`
check-in: the text path has no penalty-mode gate, so the claim is false for
text direct reports. -/
theorem penalty_cutoff_c8_counterexample :
    localMinuteOfDay 18000000 180 > (420 : Int) + 30 ∧
    (submitVoice ⟨[⟨1, 2, 3, WakeMode.fixed, some 420, none⟩], [], [], 10⟩
        ⟨2, 180⟩ 3 true 18000000 5).1 = .rejected .penalty_mode ∧
    (submitDmText ⟨[⟨1, 2, 3, WakeMode.fixed, some 420, none⟩], [], [], 10⟩
        ⟨2, 180⟩ 3 true 18000000 5).1 =
      .ok ⟨10, 2, 3, 18000000, .voice, .pending, none, false, false⟩ := by
  decide

/-- C8 (amended).  Only the voice report path enforces the penalty cutoff:
for an active fixed-mode participation with wake time `w`, a voice report
with local minute strictly above `w + 30` is rejected with `penalty_mode`
and the store is unchanged (no check-in row); flex-mode users are exempt;
DM-text reports are never rejected with `penalty_mode`. -/
theorem penalty_cutoff_c8 (s : Store) (u : User) (ch : Nat) (p : Participation)
    (hp : findParticipation s.participations u.id ch = some p)
    (hAct : p.left_at = none) (nowMs acAnswer : Int) :
    (∀ w : Nat, p.wake_mode = WakeMode.fixed → p.wake_time_local = some w →
      localMinuteOfDay nowMs u.tzOffsetMin > (w : Int) + 30 →
      submitVoice s u ch true nowMs acAnswer = (.rejected .penalty_mode, s)) ∧
    (p.wake_mode = WakeMode.flex →
      (submitVoice s u ch true nowMs acAnswer).1 ≠ .rejected .penalty_mode) ∧
    (submitDmText s u ch true nowMs acAnswer).1 ≠ .rejected .penalty_mode := by
  have hens := ensureParticipation_active s.participations u.id ch s.nextId p hp hAct
  have h1 : (ensureParticipation s.participations u.id ch s.nextId).1 = s.participations := by
    rw [hens]
  refine ⟨?_, ?_, ?_⟩
  · intro w hfix hwt hcut
    have hgate : voicePenaltyGate s.participations u.id ch u.tzOffsetMin nowMs = true := by
      unfold voicePenaltyGate
      rw [hp]
      simp [hAct, hfix, hwt, hcut]
    simp only [submitVoice, h1, hgate]
    rfl
  · intro hflex
    have hgate : voicePenaltyGate s.participations u.id ch u.tzOffsetMin nowMs = false := by
      unfold voicePenaltyGate
      rw [hp]
      simp [hflex]
    simp only [submitVoice, h1, hgate]
    by_cases hhv : hasVoiceCheckinForLocalDay s.checkins u.id ch u.tzOffsetMin nowMs <;>
      simp [hhv, insertVoiceCheckin]
  · simp only [submitDmText]
    by_cases hhv : hasVoiceCheckinForLocalDay s.checkins u.id ch u.tzOffsetMin nowMs <;>
      simp [hhv, insertVoiceCheckin]

/-- C8 witness for the amended theorem: the concrete fixed-wake voice report
at local 08:00 with wake 07:00 is rejected with `penalty_mode`. -/
theorem penalty_cutoff_c8_witness :
    submitVoice ⟨[⟨1, 2, 3, WakeMode.fixed, some 420, none⟩], [], [], 10⟩
        ⟨2, 180⟩ 3 true 18000000 5 =
      (.rejected .penalty_mode, ⟨[⟨1, 2, 3, WakeMode.fixed, some 420, none⟩], [], [], 10⟩) :=
  (penalty_cutoff_c8 ⟨[⟨1, 2, 3, WakeMode.fixed, some 420, none⟩], [], [], 10⟩
      ⟨2, 180⟩ 3 ⟨1, 2, 3, WakeMode.fixed, some 420, none⟩ rfl rfl 18000000 5).1
    420 rfl rfl (by decide)

/-- C9 counterexample: a user with no participation at all submits a voice
report; it is not rejected — it succeeds as a `pending` check-in, and a
participation row is silently created for the user (`ensureParticipation`
upserts instead of requiring one). -/
theorem requires_participation_c9_counterexample :
    findParticipation ([] : List Participation) 1 7 = none ∧
    (submitVoice ⟨[], [], [], 10⟩ ⟨1, 0⟩ 7 true 0 5).1 =
      .ok ⟨10, 1, 7, 0, .voice, .pending, none, false, false⟩ ∧
    (submitVoice ⟨[], [], [], 10⟩ ⟨1, 0⟩ 7 true 0 5).2.participations =
      [⟨10, 1, 7, WakeMode.fixed, none, none⟩] := by
  decide

/-- C9 (amended).  A voice or DM-text direct report from a user with no
participation in the active challenge is not rejected: `ensureParticipation`
silently inserts a fresh active participation (schema defaults `wake_mode =
fixed`, no wake time) and, when no voice check-in exists yet for the local
day, the report is admitted as a `pending` check-in. -/
theorem requires_participation_c9 (s : Store) (u : User) (ch : Nat)
    (hp : findParticipation s.participations u.id ch = none)
    (nowMs acAnswer : Int)
    (hnd : hasVoiceCheckinForLocalDay s.checkins u.id ch u.tzOffsetMin nowMs = false) :
    ((submitVoice s u ch true nowMs acAnswer).1 =
        .ok ⟨s.nextId, u.id, ch, nowMs, .voice, .pending, none, false, false⟩ ∧
      (submitVoice s u ch true nowMs acAnswer).2.participations =
        s.participations ++ [⟨s.nextId, u.id, ch, WakeMode.fixed, none, none⟩]) ∧
    ((submitDmText s u ch true nowMs acAnswer).1 =
        .ok ⟨s.nextId, u.id, ch, nowMs, .voice, .pending, none, false, false⟩ ∧
      (submitDmText s u ch true nowMs acAnswer).2.participations =
        s.participations ++ [⟨s.nextId, u.id, ch, WakeMode.fixed, none, none⟩]) := by
  have hens := ensureParticipation_missing s.participations u.id ch s.nextId hp
  have h1 : (ensureParticipation s.participations u.id ch s.nextId).1 =
      s.participations ++ [⟨s.nextId, u.id, ch, WakeMode.fixed, none, none⟩] := by
    rw [hens]
  have hfind : findParticipation
      (s.participations ++ [⟨s.nextId, u.id, ch, WakeMode.fixed, none, none⟩]) u.id ch =
      some ⟨s.nextId, u.id, ch, WakeMode.fixed, none, none⟩ := by
    unfold findParticipation at hp ⊢
    rw [find?_append_none _ _ _ hp]
    simp
  have hgate : voicePenaltyGate
      (s.participations ++ [⟨s.nextId, u.id, ch, WakeMode.fixed, none, none⟩])
      u.id ch u.tzOffsetMin nowMs = false := by
    unfold voicePenaltyGate
    rw [hfind]
    simp
  constructor
  · simp only [submitVoice, h1, hgate]
    simp [hnd, insertVoiceCheckin]
  · simp only [submitDmText, h1]
    simp [hnd, insertVoiceCheckin]

/-- C9 witness: the concrete no-participation user's voice report from the
counterexample, via the amended theorem. -/
theorem requires_participation_c9_witness :
    (submitVoice ⟨[], [], [], 10⟩ ⟨1, 0⟩ 7 true 0 5).1 =
        .ok ⟨10, 1, 7, 0, .voice, .pending, none, false, false⟩ ∧
      (submitVoice ⟨[], [], [], 10⟩ ⟨1, 0⟩ 7 true 0 5).2.participations =
        [⟨10, 1, 7, WakeMode.fixed, none, none⟩] :=
  (requires_participation_c9 ⟨[], [], [], 10⟩ ⟨1, 0⟩ 7 rfl 0 5 rfl).1

/-- Helper: a DM-text report against an existing same-day voice check-in is
rejected with `already_voice_today` and inserts nothing. -/
theorem submitDmText_dup (s : Store) (u : User) (ch : Nat) (nowMs acAnswer : Int)
    (h : hasVoiceCheckinForLocalDay s.checkins u.id ch u.tzOffsetMin nowMs = true) :
    (submitDmText s u ch true nowMs acAnswer).1 = .rejected .already_voice_today ∧
      (submitDmText s u ch true nowMs acAnswer).2.checkins = s.checkins := by
  simp only [submitDmText]
  simp [h]

/-- Helper: a DM-text report with no same-day voice check-in is admitted as
a fresh `pending` voice-source check-in. -/
theorem submitDmText_fresh (s : Store) (u : User) (ch : Nat) (nowMs acAnswer : Int)
    (h : hasVoiceCheckinForLocalDay s.checkins u.id ch u.tzOffsetMin nowMs = false) :
    (submitDmText s u ch true nowMs acAnswer).1 =
        .ok ⟨s.nextId, u.id, ch, nowMs, .voice, .pending, none, false, false⟩ ∧
      (submitDmText s u ch true nowMs acAnswer).2.checkins =
        s.checkins ++ [⟨s.nextId, u.id, ch, nowMs, .voice, .pending, none, false, false⟩] := by
  simp only [submitDmText]
  simp [h, insertVoiceCheckin]

/-- Helper: the voice path behaves the same once past its penalty gate. -/
theorem submitVoice_dup (s : Store) (u : User) (ch : Nat) (nowMs acAnswer : Int)
    (hg : voicePenaltyGate (ensureParticipation s.participations u.id ch s.nextId).1
      u.id ch u.tzOffsetMin nowMs = false)
    (h : hasVoiceCheckinForLocalDay s.checkins u.id ch u.tzOffsetMin nowMs = true) :
    (submitVoice s u ch true nowMs acAnswer).1 = .rejected .already_voice_today ∧
      (submitVoice s u ch true nowMs acAnswer).2.checkins = s.checkins := by
  simp only [submitVoice]
  simp [hg, h]

theorem submitVoice_fresh (s : Store) (u : User) (ch : Nat) (nowMs acAnswer : Int)
    (hg : voicePenaltyGate (ensureParticipation s.participations u.id ch s.nextId).1
      u.id ch u.tzOffsetMin nowMs = false)
    (h : hasVoiceCheckinForLocalDay s.checkins u.id ch u.tzOffsetMin nowMs = false) :
    (submitVoice s u ch true nowMs acAnswer).1 =
        .ok ⟨s.nextId, u.id, ch, nowMs, .voice, .pending, none, false, false⟩ ∧
      (submitVoice s u ch true nowMs acAnswer).2.checkins =
        s.checkins ++ [⟨s.nextId, u.id, ch, nowMs, .voice, .pending, none, false, false⟩] := by
  simp only [submitVoice]
  simp [hg, h, insertVoiceCheckin]

/-- Helper: the fresh check-in inserted at `t` counts for any local day
range containing `t`. -/
theorem isVoiceForDay_new (s : Store) (u : User) (ch : Nat) (t : Int) (r : UtcDayRange)
    (h1 : r.startMs ≤ t) (h2 : t ≤ r.endMs) :
    isVoiceForDay ⟨s.nextId, u.id, ch, t, .voice, .pending, none, false, false⟩ u.id ch r =
      true := by
  unfold isVoiceForDay
  simp [h1, h2]

/-- C3.  Per-local-day dedup for voice/DM-text reports: with a `pending` or
`approved` voice-source check-in already inside the local day's UTC range,
a voice or DM-text report is rejected with `already_voice_today` and no
check-in row is inserted (for voice, past its penalty gate); starting from a
day with no such check-in, submitting two reports at any two instants of the
same local day admits exactly the first one (one `pending` check-in, one
`already_voice_today` rejection), and the at-most-one invariant for
non-rejected voice-source check-ins per local day is preserved. -/
theorem daily_dedup_c3 (s : Store) (u : User) (ch : Nat) (t1 t2 a1 a2 : Int)
    (hday : utcRangeForLocalDay t1 u.tzOffsetMin = utcRangeForLocalDay t2 u.tzOffsetMin) :
    (hasVoiceCheckinForLocalDay s.checkins u.id ch u.tzOffsetMin t1 = true →
      ((submitDmText s u ch true t1 a1).1 = .rejected .already_voice_today ∧
        (submitDmText s u ch true t1 a1).2.checkins = s.checkins) ∧
      (voicePenaltyGate (ensureParticipation s.participations u.id ch s.nextId).1
          u.id ch u.tzOffsetMin t1 = false →
        (submitVoice s u ch true t1 a1).1 = .rejected .already_voice_today ∧
        (submitVoice s u ch true t1 a1).2.checkins = s.checkins)) ∧
    (countVoiceForDay s.checkins u.id ch (utcRangeForLocalDay t1 u.tzOffsetMin) = 0 →
      (submitDmText s u ch true t1 a1).1 =
        .ok ⟨s.nextId, u.id, ch, t1, .voice, .pending, none, false, false⟩ ∧
      (submitDmText (submitDmText s u ch true t1 a1).2 u ch true t2 a2).1 =
        .rejected .already_voice_today ∧
      countVoiceForDay
        (submitDmText (submitDmText s u ch true t1 a1).2 u ch true t2 a2).2.checkins
        u.id ch (utcRangeForLocalDay t1 u.tzOffsetMin) = 1) ∧
    (countVoiceForDay s.checkins u.id ch (utcRangeForLocalDay t1 u.tzOffsetMin) ≤ 1 →
      countVoiceForDay (submitDmText s u ch true t1 a1).2.checkins u.id ch
        (utcRangeForLocalDay t1 u.tzOffsetMin) ≤ 1) := by
  refine ⟨?_, ?_, ?_⟩
  · intro hdup
    exact ⟨submitDmText_dup s u ch t1 a1 hdup,
      fun hg => submitVoice_dup s u ch t1 a1 hg hdup⟩
  · intro h0
    have hnv : hasVoiceCheckinForLocalDay s.checkins u.id ch u.tzOffsetMin t1 = false := by
      rw [← Bool.not_eq_true]
      intro hv
      have := (hasVoice_iff_count s.checkins u.id ch u.tzOffsetMin t1).mp hv
      omega
    obtain ⟨hfst, hcs⟩ := submitDmText_fresh s u ch t1 a1 hnv
    obtain ⟨hm1, hm2⟩ := mem_own_day_range t1 u.tzOffsetMin
    have hnewc := isVoiceForDay_new s u ch t1 (utcRangeForLocalDay t1 u.tzOffsetMin) hm1 hm2
    have hcount1 : countVoiceForDay (submitDmText s u ch true t1 a1).2.checkins u.id ch
        (utcRangeForLocalDay t1 u.tzOffsetMin) = 1 := by
      rw [hcs, countVoice_append, h0, hnewc]
      simp
    have hdup2 : hasVoiceCheckinForLocalDay (submitDmText s u ch true t1 a1).2.checkins
        u.id ch u.tzOffsetMin t2 = true := by
      rw [hasVoice_iff_count, ← hday, hcount1]
      omega
    obtain ⟨hfst2, hcs2⟩ :=
      submitDmText_dup (submitDmText s u ch true t1 a1).2 u ch t2 a2 hdup2
    refine ⟨hfst, hfst2, ?_⟩
    rw [hcs2, hcount1]
  · intro hle
    by_cases hv : hasVoiceCheckinForLocalDay s.checkins u.id ch u.tzOffsetMin t1
    · rw [(submitDmText_dup s u ch t1 a1 hv).2]
      exact hle
    · have h0 : countVoiceForDay s.checkins u.id ch
          (utcRangeForLocalDay t1 u.tzOffsetMin) = 0 := by
        have := (hasVoice_iff_count s.checkins u.id ch u.tzOffsetMin t1).not.mp hv
        omega
      obtain ⟨hm1, hm2⟩ := mem_own_day_range t1 u.tzOffsetMin
      rw [(submitDmText_fresh s u ch t1 a1 (Bool.not_eq_true _ ▸ hv)).2,
        countVoice_append, h0,
        isVoiceForDay_new s u ch t1 (utcRangeForLocalDay t1 u.tzOffsetMin) hm1 hm2]
      simp

/-- C3 witness: two DM-text reports one minute apart in the same local day —
the first is admitted pending, the second rejected `already_voice_today`,
leaving exactly one non-rejected voice check-in for the day. -/
theorem daily_dedup_c3_witness :
    (submitDmText ⟨[⟨1, 2, 3, WakeMode.fixed, some 420, none⟩], [], [], 10⟩
        ⟨2, 180⟩ 3 true 0 5).1 =
      .ok ⟨10, 2, 3, 0, .voice, .pending, none, false, false⟩ ∧
    (submitDmText (submitDmText ⟨[⟨1, 2, 3, WakeMode.fixed, some 420, none⟩], [], [], 10⟩
          ⟨2, 180⟩ 3 true 0 5).2 ⟨2, 180⟩ 3 true 60000 6).1 =
      .rejected .already_voice_today ∧
    countVoiceForDay
      (submitDmText (submitDmText ⟨[⟨1, 2, 3, WakeMode.fixed, some 420, none⟩], [], [], 10⟩
          ⟨2, 180⟩ 3 true 0 5).2 ⟨2, 180⟩ 3 true 60000 6).2.checkins
      2 3 (utcRangeForLocalDay 0 180) = 1 :=
  (daily_dedup_c3 ⟨[⟨1, 2, 3, WakeMode.fixed, some 420, none⟩], [], [], 10⟩
      ⟨2, 180⟩ 3 0 60000 5 6 (by decide)).2.1 (by decide)

/-- C10.  Only `pending`/`approved` check-ins count toward the daily
voice/text limit: when every voice-source check-in of the user inside the
local day's UTC range is `rejected`, the dedup test is negative and a new
DM-text report — or voice report past its penalty gate — is admitted as a
fresh `pending` check-in. -/
theorem rejected_not_counted_c10 (s : Store) (u : User) (ch : Nat) (t acAnswer : Int)
    (hrej : ∀ c ∈ s.checkins, c.user_id = u.id → c.challenge_id = ch →
      c.source = Source.voice →
      (utcRangeForLocalDay t u.tzOffsetMin).startMs ≤ c.checkin_at_utc →
      c.checkin_at_utc ≤ (utcRangeForLocalDay t u.tzOffsetMin).endMs →
      c.status = Status.rejected) :
    hasVoiceCheckinForLocalDay s.checkins u.id ch u.tzOffsetMin t = false ∧
    (submitDmText s u ch true t acAnswer).1 =
      .ok ⟨s.nextId, u.id, ch, t, .voice, .pending, none, false, false⟩ ∧
    (voicePenaltyGate (ensureParticipation s.participations u.id ch s.nextId).1
        u.id ch u.tzOffsetMin t = false →
      (submitVoice s u ch true t acAnswer).1 =
        .ok ⟨s.nextId, u.id, ch, t, .voice, .pending, none, false, false⟩) := by
  have hnv : hasVoiceCheckinForLocalDay s.checkins u.id ch u.tzOffsetMin t = false := by
    unfold hasVoiceCheckinForLocalDay
    rw [List.any_eq_false]
    intro c hc
    unfold isVoiceForDay
    simp only [decide_eq_true_eq, not_and]
    intro h1 h2 h3 h4 h5 h6
    rcases h4 with h4 | h4 <;>
      simp [hrej c hc h1 h2 h3 h5 h6] at h4
  exact ⟨hnv, (submitDmText_fresh s u ch t acAnswer hnv).1,
    fun hg => (submitVoice_fresh s u ch t acAnswer hg hnv).1⟩

/-- C10 witness: a user whose only voice check-in of the day was rejected
(`anticheat_failed`) submits again and is admitted. -/
theorem rejected_not_counted_c10_witness :
    (submitDmText ⟨[⟨1, 2, 3, WakeMode.fixed, some 420, none⟩],
        [⟨5, 2, 3, 0, .voice, .rejected, some "anticheat_failed", false, false⟩],
        [], 10⟩ ⟨2, 180⟩ 3 true 60000 7).1 =
      .ok ⟨10, 2, 3, 60000, .voice, .pending, none, false, false⟩ :=
  (rejected_not_counted_c10 ⟨[⟨1, 2, 3, WakeMode.fixed, some 420, none⟩],
      [⟨5, 2, 3, 0, .voice, .rejected, some "anticheat_failed", false, false⟩],
      [], 10⟩ ⟨2, 180⟩ 3 60000 7 (by decide)).2.1

/-- Helper: every row of `updateCheckin` either has the written status or is
an untouched original row. -/
theorem mem_updateCheckin_status (cs : List Checkin) (id : Nat) (st : Status)
    (r : Option String) (b : Bool) (c' : Checkin)
    (h : c' ∈ updateCheckin cs id st r b) : c'.status = st ∨ c' ∈ cs := by
  unfold updateCheckin at h
  obtain ⟨x, hx, hfx⟩ := List.mem_map.mp h
  by_cases hid : x.id = id
  · left
    rw [← hfx]
    simp [hid]
  · right
    rw [← hfx]
    simp only [hid, if_false]
    exact hx

/-- C4.  Anti-cheat resolution for a pending, unexpired challenge owned by a
voice check-in: a wrong parseable answer increments the attempt count (the
challenge stays pending below three attempts); the third wrong answer fails
the challenge and rejects the check-in with `anticheat_failed`; the correct
answer (at any attempt before exhaustion) passes the challenge and approves
the check-in; and the correct-answer path is the only way `solveAntiCheat`
produces a newly approved check-in, while the voice/DM-text submission
handlers never insert an approved one. -/
theorem anti_cheat_c4 (s : Store) (userId chId checkin_id : Nat) (c : Checkin)
    (a : AntiCheat)
    (hc : s.checkins.find? (fun x => decide (x.id = checkin_id)) = some c)
    (hcu : c.user_id = userId) (hcc : c.challenge_id = chId)
    (hcs : c.source = Source.voice)
    (ha : s.antiCheats.find? (fun x => decide (x.checkin_id = checkin_id)) = some a)
    (hpend : a.status = ACStatus.pending) (nowMs : Int)
    (hexp : nowMs < a.expires_at_utc) :
    (∀ ans : Int, ans ≠ a.answer_int → a.attempts + 1 < 3 →
      solveAntiCheat s userId chId checkin_id (some ans) nowMs =
        (.wrong_answer (3 - (a.attempts + 1)),
          { s with antiCheats := updateAntiCheat s.antiCheats a.id .pending (a.attempts + 1) })) ∧
    (∀ ans : Int, ans ≠ a.answer_int → a.attempts + 1 ≥ 3 →
      solveAntiCheat s userId chId checkin_id (some ans) nowMs =
        (.failed_result,
          { s with antiCheats := updateAntiCheat s.antiCheats a.id .failed (a.attempts + 1),
                   checkins := updateCheckin s.checkins checkin_id .rejected
                     (some "anticheat_failed") c.anticheat_passed })) ∧
    (solveAntiCheat s userId chId checkin_id (some a.answer_int) nowMs =
      (.solved,
        { s with antiCheats := updateAntiCheat s.antiCheats a.id .passed a.attempts,
                 checkins := updateCheckin s.checkins checkin_id .approved
                   c.reject_reason true })) ∧
    (∀ (answer' : Option Int) (now' : Int) (c' : Checkin),
      c' ∈ (solveAntiCheat s userId chId checkin_id answer' now').2.checkins →
      c'.status = .approved →
      c' ∈ s.checkins ∨ (answer' = some a.answer_int ∧ now' < a.expires_at_utc)) ∧
    (∀ (s' : Store) (u : User) (ch : Nat) (g : Bool) (t ansGen : Int) (c' : Checkin),
      c' ∈ (submitVoice s' u ch g t ansGen).2.checkins → c'.status = .approved →
      c' ∈ s'.checkins) ∧
    (∀ (s' : Store) (u : User) (ch : Nat) (g : Bool) (t ansGen : Int) (c' : Checkin),
      c' ∈ (submitDmText s' u ch g t ansGen).2.checkins → c'.status = .approved →
      c' ∈ s'.checkins) := by
  have hnle : ¬a.expires_at_utc ≤ nowMs := not_le.mpr hexp
  refine ⟨?_, ?_, ?_, ?_, ?_, ?_⟩
  · intro ans hne hlt
    simp only [solveAntiCheat, hc, ha]
    simp [hcu, hcc, hcs, hpend, hnle, hne, Nat.not_le.mpr hlt]
  · intro ans hne hge
    simp only [solveAntiCheat, hc, ha]
    simp [hcu, hcc, hcs, hpend, hnle, hne, hge]
  · simp only [solveAntiCheat, hc, ha]
    simp [hcu, hcc, hcs, hpend, hnle]
  · intro answer' now' c' hm happ
    by_cases hle : a.expires_at_utc ≤ now'
    · simp only [solveAntiCheat, hc, ha] at hm
      simp [hcu, hcc, hcs, hpend, hle] at hm
      rcases mem_updateCheckin_status _ _ _ _ _ _ hm with hst | hmem
      · rw [happ] at hst
        exact absurd hst (by simp)
      · exact Or.inl hmem
    · match hansv : answer' with
      | none =>
        simp only [solveAntiCheat, hc, ha] at hm
        simp [hcu, hcc, hcs, hpend, hle] at hm
        exact Or.inl hm
      | some ans =>
        by_cases hans : ans = a.answer_int
        · exact Or.inr ⟨by rw [hans], not_le.mp hle⟩
        · by_cases hge : a.attempts + 1 ≥ 3
          · simp only [solveAntiCheat, hc, ha] at hm
            simp [hcu, hcc, hcs, hpend, hle, hans, hge] at hm
            rcases mem_updateCheckin_status _ _ _ _ _ _ hm with hst | hmem
            · rw [happ] at hst
              exact absurd hst (by simp)
            · exact Or.inl hmem
          · have h2 : ¬2 ≤ a.attempts := by omega
            simp only [solveAntiCheat, hc, ha] at hm
            simp [hcu, hcc, hcs, hpend, hle, hans, h2] at hm
            exact Or.inl hm
  · intro s' u ch g t ansGen c' hm happ
    match g with
    | false =>
      simpa [submitVoice] using hm
    | true =>
      simp only [submitVoice] at hm
      by_cases hg : voicePenaltyGate (ensureParticipation s'.participations u.id ch
          s'.nextId).1 u.id ch u.tzOffsetMin t
      · simpa [hg] using hm
      · by_cases hv : hasVoiceCheckinForLocalDay s'.checkins u.id ch u.tzOffsetMin t
        · simpa [hg, hv] using hm
        · simp [hg, hv, insertVoiceCheckin] at hm
          rcases hm with hm | hm
          · exact hm
          · rw [hm] at happ
            exact absurd happ (by simp)
  · intro s' u ch g t ansGen c' hm happ
    match g with
    | false =>
      simpa [submitDmText] using hm
    | true =>
      simp only [submitDmText] at hm
      by_cases hv : hasVoiceCheckinForLocalDay s'.checkins u.id ch u.tzOffsetMin t
      · simpa [hv] using hm
      · simp [hv, insertVoiceCheckin] at hm
        rcases hm with hm | hm
        · exact hm
        · rw [hm] at happ
          exact absurd happ (by simp)

/-- C4 witness: a pending challenge with answer 8 and zero attempts, solved
correctly within the TTL — challenge `passed`, check-in `approved`. -/
theorem anti_cheat_c4_witness :
    solveAntiCheat
        ⟨[], [⟨5, 2, 3, 0, .voice, .pending, none, false, false⟩],
         [⟨9, 5, 2, 3, 8, 0, .pending, 120000⟩], 10⟩ 2 3 5 (some 8) 60000 =
      (.solved,
        ⟨[], [⟨5, 2, 3, 0, .voice, .approved, none, true, false⟩],
         [⟨9, 5, 2, 3, 8, 0, .passed, 120000⟩], 10⟩) := by
  have h := (anti_cheat_c4
    ⟨[], [⟨5, 2, 3, 0, .voice, .pending, none, false, false⟩],
     [⟨9, 5, 2, 3, 8, 0, .pending, 120000⟩], 10⟩ 2 3 5
    ⟨5, 2, 3, 0, .voice, .pending, none, false, false⟩
    ⟨9, 5, 2, 3, 8, 0, .pending, 120000⟩
    rfl rfl rfl rfl rfl rfl 60000 (by decide)).2.2.1
  rw [h]
  rfl

/-- Helper: `nowMs` is before the folded latest expiry iff it is before the
accumulator or before some day-counted payment's expiry in the list. -/
theorem maxUntilFold_lt (nowMs : Int) (rows : List Payment) :
    ∀ acc : Option Int,
      (match maxUntilFold rows acc with
       | some m => nowMs < m
       | none => False) ↔
      ((match acc with
        | some m => nowMs < m
        | none => False) ∨
        ∃ r ∈ rows, ∃ d : Nat,
          (paidDaysFromPlanOrAmount r.plan_code r.amount).2 = false ∧
          (paidDaysFromPlanOrAmount r.plan_code r.amount).1 = some d ∧
          nowMs < r.created_at + (d : Int) * 86400000) := by
  have hstep : ∀ (acc : Option Int) (r : Payment),
      (match maxUntilStep acc r with
        | some m => nowMs < m
        | none => False) ↔
      ((match acc with
        | some m => nowMs < m
        | none => False) ∨
        ∃ d : Nat, (paidDaysFromPlanOrAmount r.plan_code r.amount).2 = false ∧
          (paidDaysFromPlanOrAmount r.plan_code r.amount).1 = some d ∧
          nowMs < r.created_at + (d : Int) * 86400000) := by
    intro acc r
    unfold maxUntilStep
    rcases hinfo : paidDaysFromPlanOrAmount r.plan_code r.amount with ⟨days, fore⟩
    rcases fore <;> rcases days with _ | d <;> rcases acc with _ | m <;>
      simp only [Bool.false_eq_true, if_false, if_true] <;>
      try split_ifs with hgt
    all_goals simp
    all_goals omega
  induction rows with
  | nil =>
    intro acc
    simp [maxUntilFold]
  | cons r rows ih =>
    intro acc
    have hcons : maxUntilFold (r :: rows) acc = maxUntilFold rows (maxUntilStep acc r) := rfl
    rw [hcons, ih (maxUntilStep acc r), hstep acc r]
    constructor
    · rintro ((h | ⟨d, hd1, hd2, hd3⟩) | ⟨x, hx, hd⟩)
      · exact Or.inl h
      · exact Or.inr ⟨r, List.mem_cons_self r rows, d, hd1, hd2, hd3⟩
      · exact Or.inr ⟨x, List.mem_cons_of_mem _ hx, hd⟩
    · rintro (h | ⟨x, hx, d, hd1, hd2, hd3⟩)
      · exact Or.inl (Or.inl h)
      · rcases List.mem_cons.mp hx with hx | hx
        · subst hx
          exact Or.inl (Or.inr ⟨d, hd1, hd2, hd3⟩)
        · exact Or.inr ⟨x, hx, d, hd1, hd2, hd3⟩

/-- Helper: a plan mapping to a day count is never a forever plan. -/
theorem paidDays_some_not_forever (pc : Option String) (am : Option Int) (d : Nat)
    (h : (paidDaysFromPlanOrAmount pc am).1 = some d) :
    (paidDaysFromPlanOrAmount pc am).2 = false := by
  have hamt : ∀ am' : Option Int, (paidDaysFromAmount am').1 = some d →
      (paidDaysFromAmount am').2 = false := by
    intro am'
    unfold paidDaysFromAmount
    split <;> intro hh <;> simp_all
  unfold paidDaysFromPlanOrAmount at h ⊢
  split_ifs at h ⊢ <;> first
    | rfl
    | exact hamt am h

/-- Specification-side paid condition: some paid payment maps to forever, or
now is strictly before some paid payment's expiry (equivalently, before the
latest expiry over all paid payments). -/
def specPaid (payments : List Payment) (nowMs : Int) : Prop :=
  (∃ r ∈ payments.filter (fun p => p.status = "paid"),
    (paidDaysFromPlanOrAmount r.plan_code r.amount).2 = true) ∨
  (∃ r ∈ payments.filter (fun p => p.status = "paid"), ∃ d : Nat,
    (paidDaysFromPlanOrAmount r.plan_code r.amount).1 = some d ∧
    nowMs < r.created_at + (d : Int) * 86400000)

/-- Specification-side active-trial condition: now is strictly before the
most recent trial start plus 7 days. -/
def specTrialActive (trialStart : Option Int) (nowMs : Int) : Prop :=
  ∃ t, trialStart = some t ∧ nowMs < t + 7 * 86400000

/-- Helper: `is_active_paid` of `getPaidAccessInfo` matches `specPaid`. -/
theorem is_active_paid_iff (payments : List Payment) (nowMs : Int) :
    (getPaidAccessInfo payments nowMs).is_active_paid = true ↔
      specPaid payments nowMs := by
  simp only [getPaidAccessInfo, specPaid]
  by_cases he : (payments.filter (fun p => p.status = "paid")).isEmpty = true
  · rw [if_pos he]
    have hnil : payments.filter (fun p => p.status = "paid") = [] := by
      simpa [List.isEmpty_iff] using he
    simp [hnil]
  · rw [if_neg he]
    by_cases hf : (payments.filter (fun p => p.status = "paid")).any
        (fun r => (paidDaysFromPlanOrAmount r.plan_code r.amount).2) = true
    · rw [if_pos hf]
      simp only [true_iff]
      exact Or.inl (List.any_eq_true.mp hf)
    · rw [if_neg hf]
      have hspec := maxUntilFold_lt nowMs
        (payments.filter (fun p => p.status = "paid")) none
      simp only [false_or] at hspec
      rcases hmu : maxUntilFold (payments.filter (fun p => p.status = "paid")) none with
        _ | m
      · rw [hmu] at hspec
        simp only [] at hspec ⊢
        constructor
        · intro hcontra
          exact absurd hcontra (by simp)
        · rintro (hfor | ⟨r, hr, d, hd, hlt⟩)
          · exact absurd (List.any_eq_true.mpr hfor) hf
          · exact absurd (hspec.mpr ⟨r, hr, d,
              paidDays_some_not_forever r.plan_code r.amount d hd, hd, hlt⟩) (by simp)
      · rw [hmu] at hspec
        simp only [] at hspec ⊢
        rw [decide_eq_true_eq]
        constructor
        · intro hlt
          obtain ⟨r, hr, d, _, hd2, hd3⟩ := hspec.mp hlt
          exact Or.inr ⟨r, hr, d, hd2, hd3⟩
        · rintro (hfor | ⟨r, hr, d, hd, hlt⟩)
          · exact absurd (List.any_eq_true.mpr hfor) hf
          · exact hspec.mpr ⟨r, hr, d,
              paidDays_some_not_forever r.plan_code r.amount d hd, hd, hlt⟩

/-- Helper: `has_any_paid` of `getPaidAccessInfo` is nonemptiness of the
paid-payment rows. -/
theorem has_any_paid_iff (payments : List Payment) (nowMs : Int) :
    (getPaidAccessInfo payments nowMs).has_any_paid = true ↔
      ∃ r ∈ payments, r.status = "paid" := by
  simp only [getPaidAccessInfo]
  by_cases he : (payments.filter (fun p => p.status = "paid")).isEmpty = true
  · rw [if_pos he]
    have hnil : payments.filter (fun p => p.status = "paid") = [] := by
      simpa [List.isEmpty_iff] using he
    simp only [Bool.false_eq_true, false_iff]
    rintro ⟨r, hr, hst⟩
    have hmem : r ∈ payments.filter (fun p => p.status = "paid") :=
      List.mem_filter.mpr ⟨hr, by simp [hst]⟩
    rw [hnil] at hmem
    exact absurd hmem (by simp)
  · rw [if_neg he]
    have hne : payments.filter (fun p => p.status = "paid") ≠ [] := by
      intro hnil
      exact he (by simp [hnil])
    obtain ⟨r, hr⟩ := List.exists_mem_of_ne_nil _ hne
    obtain ⟨hrp, hrs⟩ := List.mem_filter.mp hr
    split_ifs <;>
      exact iff_of_true rfl ⟨r, hrp, by simpa using hrs⟩

/-- Helper: the trial-activity test matches `specTrialActive`. -/
theorem trialActive_iff (trialStart : Option Int) (nowMs : Int) :
    (match getTrialUntilUtc trialStart with
      | some t => decide (nowMs < t)
      | none => false) = true ↔ specTrialActive trialStart nowMs := by
  unfold specTrialActive
  rcases trialStart with _ | t0 <;> simp [getTrialUntilUtc]

/-- C5.  Access classification: `paid` iff some paid payment maps to forever
or now is strictly before some (equivalently, the latest) paid payment's
expiry; otherwise `trial` iff now is strictly before the most recent trial
start plus 7 days; otherwise `expired` iff some paid payment exists;
otherwise `lead`.  In particular a user with a single 30-day payment from
instant 0 and no trial is `paid` strictly before day 30 and `expired` from
day 30 onward. -/
theorem access_classification_c5 (payments : List Payment) (trialStart : Option Int)
    (nowMs : Int) :
    (classifyAccess payments trialStart nowMs = .paid ↔ specPaid payments nowMs) ∧
    (classifyAccess payments trialStart nowMs = .trial ↔
      ¬specPaid payments nowMs ∧ specTrialActive trialStart nowMs) ∧
    (classifyAccess payments trialStart nowMs = .expired ↔
      ¬specPaid payments nowMs ∧ ¬specTrialActive trialStart nowMs ∧
        ∃ r ∈ payments, r.status = "paid") ∧
    (classifyAccess payments trialStart nowMs = .lead ↔
      ¬specPaid payments nowMs ∧ ¬specTrialActive trialStart nowMs ∧
        ¬∃ r ∈ payments, r.status = "paid") ∧
    (payments = [⟨0, some "d30", none, "paid"⟩] → trialStart = none →
      ((nowMs < 2592000000 → classifyAccess payments trialStart nowMs = .paid) ∧
        (2592000000 ≤ nowMs → classifyAccess payments trialStart nowMs = .expired))) := by
  have hactive := is_active_paid_iff payments nowMs
  have hhas := has_any_paid_iff payments nowMs
  have htrial := trialActive_iff trialStart nowMs
  have hmain : (classifyAccess payments trialStart nowMs = .paid ↔
        specPaid payments nowMs) ∧
      (classifyAccess payments trialStart nowMs = .trial ↔
        ¬specPaid payments nowMs ∧ specTrialActive trialStart nowMs) ∧
      (classifyAccess payments trialStart nowMs = .expired ↔
        ¬specPaid payments nowMs ∧ ¬specTrialActive trialStart nowMs ∧
          ∃ r ∈ payments, r.status = "paid") ∧
      (classifyAccess payments trialStart nowMs = .lead ↔
        ¬specPaid payments nowMs ∧ ¬specTrialActive trialStart nowMs ∧
          ¬∃ r ∈ payments, r.status = "paid") := by
    by_cases hb1 : (getPaidAccessInfo payments nowMs).is_active_paid = true
    · have hcls : classifyAccess payments trialStart nowMs = .paid := by
        simp only [classifyAccess]
        rw [if_pos hb1]
      have hsp := hactive.mp hb1
      refine ⟨iff_of_true hcls hsp, ?_, ?_, ?_⟩
      · exact iff_of_false (by simp [hcls]) (fun h => h.1 hsp)
      · exact iff_of_false (by simp [hcls]) (fun h => h.1 hsp)
      · exact iff_of_false (by simp [hcls]) (fun h => h.1 hsp)
    · have hnp : ¬specPaid payments nowMs := fun hs => hb1 (hactive.mpr hs)
      by_cases hb2 : (match getTrialUntilUtc trialStart with
          | some t => decide (nowMs < t)
          | none => false) = true
      · have hcls : classifyAccess payments trialStart nowMs = .trial := by
          simp only [classifyAccess]
          rw [if_neg hb1, if_pos hb2]
        have hta := htrial.mp hb2
        refine ⟨?_, iff_of_true hcls ⟨hnp, hta⟩, ?_, ?_⟩
        · exact iff_of_false (by simp [hcls]) hnp
        · exact iff_of_false (by simp [hcls]) (fun h => h.2.1 hta)
        · exact iff_of_false (by simp [hcls]) (fun h => h.2.1 hta)
      · have hnt : ¬specTrialActive trialStart nowMs := fun hs => hb2 (htrial.mpr hs)
        by_cases hb3 : (getPaidAccessInfo payments nowMs).has_any_paid = true
        · have hcls : classifyAccess payments trialStart nowMs = .expired := by
            simp only [classifyAccess]
            rw [if_neg hb1, if_neg hb2, if_pos hb3]
          refine ⟨?_, ?_, iff_of_true hcls ⟨hnp, hnt, hhas.mp hb3⟩, ?_⟩
          · exact iff_of_false (by simp [hcls]) hnp
          · exact iff_of_false (by simp [hcls]) (fun h => hnt h.2)
          · exact iff_of_false (by simp [hcls]) (fun h => h.2.2 (hhas.mp hb3))
        · have hnh : ¬∃ r ∈ payments, r.status = "paid" :=
            fun hs => hb3 (hhas.mpr hs)
          have hcls : classifyAccess payments trialStart nowMs = .lead := by
            simp only [classifyAccess]
            rw [if_neg hb1, if_neg hb2, if_neg hb3]
          refine ⟨?_, ?_, ?_, iff_of_true hcls ⟨hnp, hnt, hnh⟩⟩
          · exact iff_of_false (by simp [hcls]) hnp
          · exact iff_of_false (by simp [hcls]) (fun h => hnt h.2)
          · exact iff_of_false (by simp [hcls]) (fun h => hnh h.2.2)
  refine ⟨hmain.1, hmain.2.1, hmain.2.2.1, hmain.2.2.2, ?_⟩
  intro hpay htr
  constructor
  · intro hlt
    refine hmain.1.mpr (Or.inr ⟨⟨0, some "d30", none, "paid"⟩, ?_, 30, ?_, ?_⟩)
    · rw [hpay]
      decide
    · decide
    · push_cast
      omega
  · intro hge
    refine hmain.2.2.1.mpr ⟨?_, ?_, ⟨⟨0, some "d30", none, "paid"⟩, ?_, ?_⟩⟩
    · rintro (⟨r, hr, hfor⟩ | ⟨r, hr, d, hd, hlt⟩)
      · rw [hpay] at hr
        have : r = ⟨0, some "d30", none, "paid"⟩ := by
          have := List.mem_filter.mp hr
          simpa using this.1
        rw [this] at hfor
        exact absurd hfor (by decide)
      · rw [hpay] at hr
        have hre : r = ⟨0, some "d30", none, "paid"⟩ := by
          have := List.mem_filter.mp hr
          simpa using this.1
        rw [hre] at hd hlt
        have hd30 : d = 30 := by
          have h30 : (paidDaysFromPlanOrAmount (some "d30") none).1 = some 30 := by decide
          rw [h30] at hd
          injection hd
          omega
        rw [hd30] at hlt
        push_cast at hlt
        omega
    · rintro ⟨t, ht, _⟩
      rw [htr] at ht
      exact absurd ht (by simp)
    · rw [hpay]
      exact List.mem_singleton.mpr rfl
    · rfl

/-- C5 witness: the single 30-day payment from instant 0 classifies as
`paid` at instant 0. -/
theorem access_classification_c5_witness :
    classifyAccess [⟨0, some "d30", none, "paid"⟩] none 0 = .paid :=
  ((access_classification_c5 [⟨0, some "d30", none, "paid"⟩] none 0).2.2.2.2
    rfl rfl).1 (by decide)

/-- Helper: the subscription steps only touch their own column. -/
theorem subStep1_preserves (u : SubUser) (pu nowMs : Int) :
    (subStep1 u pu nowMs).1.id = u.id ∧
    (subStep1 u pu nowMs).1.telegram_user_id = u.telegram_user_id ∧
    (subStep1 u pu nowMs).1.paid_until = u.paid_until ∧
    (subStep1 u pu nowMs).1.next_payment_reminder_at = u.next_payment_reminder_at ∧
    (subStep1 u pu nowMs).1.expiry_prompt_sent_at = u.expiry_prompt_sent_at ∧
    (subStep1 u pu nowMs).1.kicked_from_chat_at = u.kicked_from_chat_at := by
  unfold subStep1
  split_ifs <;> simp

theorem subStep2_preserves (u : SubUser) (a : Bool) (pu nowMs : Int) :
    (subStep2 u a pu nowMs).1.id = u.id ∧
    (subStep2 u a pu nowMs).1.telegram_user_id = u.telegram_user_id ∧
    (subStep2 u a pu nowMs).1.paid_until = u.paid_until ∧
    (subStep2 u a pu nowMs).1.next_payment_reminder_at = u.next_payment_reminder_at ∧
    (subStep2 u a pu nowMs).1.reminder_2d_sent_at = u.reminder_2d_sent_at ∧
    (subStep2 u a pu nowMs).1.kicked_from_chat_at = u.kicked_from_chat_at := by
  unfold subStep2
  split_ifs <;> simp

theorem subStep3_preserves (u : SubUser) (pu nowMs : Int) :
    (subStep3 u pu nowMs).1.id = u.id ∧
    (subStep3 u pu nowMs).1.telegram_user_id = u.telegram_user_id ∧
    (subStep3 u pu nowMs).1.paid_until = u.paid_until ∧
    (subStep3 u pu nowMs).1.next_payment_reminder_at = u.next_payment_reminder_at ∧
    (subStep3 u pu nowMs).1.reminder_2d_sent_at = u.reminder_2d_sent_at ∧
    (subStep3 u pu nowMs).1.expiry_prompt_sent_at = u.expiry_prompt_sent_at := by
  unfold subStep3
  split_ifs <;> simp

/-- Helper: the marker tests read a single column. -/
theorem alreadyReminded_congr (u v : SubUser) (x : Int)
    (h : u.reminder_2d_sent_at = v.reminder_2d_sent_at) :
    alreadyReminded u x = alreadyReminded v x := by
  unfold alreadyReminded
  rw [h]

theorem alreadyPrompted_congr (u v : SubUser) (x : Int)
    (h : u.expiry_prompt_sent_at = v.expiry_prompt_sent_at) :
    alreadyPrompted u x = alreadyPrompted v x := by
  unfold alreadyPrompted
  rw [h]

theorem alreadyKicked_congr (u v : SubUser) (x : Int)
    (h : u.kicked_from_chat_at = v.kicked_from_chat_at) :
    alreadyKicked u x = alreadyKicked v x := by
  unfold alreadyKicked
  rw [h]

/-- Helper: after a step ran inside its window, its own marker holds. -/
theorem subStep1_after (u : SubUser) (pu nowMs : Int)
    (hw : pu - 2 * 86400000 ≤ nowMs ∧ nowMs < pu) :
    alreadyReminded (subStep1 u pu nowMs).1 (pu - 2 * 86400000) = true := by
  unfold subStep1
  rw [if_pos hw]
  by_cases ha : alreadyReminded u (pu - 2 * 86400000) = true
  · rw [if_pos ha]
    exact ha
  · rw [if_neg ha]
    unfold alreadyReminded
    simp only []
    exact decide_eq_true hw.1

theorem subStep2_after (u : SubUser) (a : Bool) (pu nowMs : Int)
    (hw : pu ≤ nowMs ∧ nowMs < pu + 86400000) :
    alreadyPrompted (subStep2 u a pu nowMs).1 pu = true := by
  unfold subStep2
  rw [if_pos hw]
  by_cases ha : alreadyPrompted u pu = true
  · simp [ha]
  · simp only [ha, Bool.false_eq_true, if_false]
    unfold alreadyPrompted
    simp only []
    exact decide_eq_true hw.1

theorem subStep3_after (u : SubUser) (pu nowMs : Int)
    (hw : pu + 86400000 ≤ nowMs) :
    alreadyKicked (subStep3 u pu nowMs).1 (pu + 86400000) = true := by
  unfold subStep3
  rw [if_pos hw]
  by_cases ha : alreadyKicked u (pu + 86400000) = true
  · rw [if_pos ha]
    exact ha
  · rw [if_neg ha]
    unfold alreadyKicked
    simp only []
    exact decide_eq_true hw

/-- Helper: a step whose marker already holds (or whose window is closed) is
a no-op. -/
theorem subStep1_noop (u : SubUser) (pu nowMs : Int)
    (h : ¬(pu - 2 * 86400000 ≤ nowMs ∧ nowMs < pu) ∨
      alreadyReminded u (pu - 2 * 86400000) = true) :
    subStep1 u pu nowMs = (u, []) := by
  unfold subStep1
  rcases h with h | h
  · rw [if_neg h]
  · split_ifs <;> simp_all

theorem subStep2_noop (u : SubUser) (a : Bool) (pu nowMs : Int)
    (h : ¬(pu ≤ nowMs ∧ nowMs < pu + 86400000) ∨ alreadyPrompted u pu = true) :
    subStep2 u a pu nowMs =
      (u, (if pu ≤ nowMs ∧ nowMs < pu + 86400000 then a else false), []) := by
  unfold subStep2
  rcases h with h | h
  · rw [if_neg h, if_neg h]
  · split_ifs <;> simp_all

theorem subStep3_noop (u : SubUser) (pu nowMs : Int)
    (h : ¬(pu + 86400000 ≤ nowMs) ∨ alreadyKicked u (pu + 86400000) = true) :
    subStep3 u pu nowMs = (u, []) := by
  unfold subStep3
  rcases h with h | h
  · rw [if_neg h]
  · split_ifs <;> simp_all

/-- Helper: re-writing the already-persisted date columns is the identity. -/
theorem subUser_set_dates_eq (u : SubUser) (pum : Option Int) (rem : Option Int)
    (h1 : u.paid_until = pum) (h2 : u.next_payment_reminder_at = rem) :
    ({ u with paid_until := pum, next_payment_reminder_at := rem } : SubUser) = u := by
  cases u
  simp_all

/-- Helper: unfolding `subscriptionUserRun` into its three steps. -/
theorem subscriptionUserRun_unfold (u : SubUser) (payments : List Payment)
    (a : Bool) (nowMs : Int) :
    subscriptionUserRun u payments a nowMs =
      (match (if (computePaidUntil payments).1 then none
              else (computePaidUntil payments).2 : Option Int) with
       | none =>
         { user := { u with paid_until := none, next_payment_reminder_at := none },
           leftSet := false, msgs := [] }
       | some pu =>
         { user := (subStep3 (subStep2 (subStep1
             { u with paid_until := some pu,
                      next_payment_reminder_at := some (pu - 2 * 86400000) }
             pu nowMs).1 a pu nowMs).1 pu nowMs).1,
           leftSet := (subStep2 (subStep1
             { u with paid_until := some pu,
                      next_payment_reminder_at := some (pu - 2 * 86400000) }
             pu nowMs).1 a pu nowMs).2.1,
           msgs := (subStep1
             { u with paid_until := some pu,
                      next_payment_reminder_at := some (pu - 2 * 86400000) }
             pu nowMs).2 ++
             (subStep2 (subStep1
               { u with paid_until := some pu,
                        next_payment_reminder_at := some (pu - 2 * 86400000) }
               pu nowMs).1 a pu nowMs).2.2 ++
             (subStep3 (subStep2 (subStep1
               { u with paid_until := some pu,
                        next_payment_reminder_at := some (pu - 2 * 86400000) }
               pu nowMs).1 a pu nowMs).1 pu nowMs).2 }) := by
  simp only [subscriptionUserRun]
  generalize (if (computePaidUntil payments).1 then none
      else (computePaidUntil payments).2 : Option Int) = pum
  rcases pum with _ | pu <;> rfl

/-- Helper: the `left_at` marking of the expiry window is exactly
"window open and participation still active". -/
theorem subStep2_left (u : SubUser) (a : Bool) (pu nowMs : Int) :
    (subStep2 u a pu nowMs).2.1 =
      (if pu ≤ nowMs ∧ nowMs < pu + 86400000 then a else false) := by
  unfold subStep2
  split_ifs <;> rfl

/-- C7 counterexample: a user with an active trial (trial started one day
ago, so the access class is `trial`) but a lapsed 30-day payment is not
excluded from the subscription sweep: at 30.5 days the expiry-prompt trigger
fires and the participation is stopped (`left_at = now`), refuting that
users with an active trial are excluded from all three triggers. -/
theorem subscription_triggers_c7_counterexample :
    classifyAccess [⟨0, some "d30", none, "paid"⟩] (some 2548800000) 2635200000 =
      .trial ∧
    (subscriptionUserRun ⟨1, 100, none, none, none, none, none⟩
        [⟨0, some "d30", none, "paid"⟩] true 2635200000).msgs =
      [.expiryPrompt] ∧
    (subscriptionUserRun ⟨1, 100, none, none, none, none, none⟩
        [⟨0, some "d30", none, "paid"⟩] true 2635200000).leftSet = true := by
  decide

/-- C7 (amended).  In the subscription sweep, users whose paid payments map
to forever, and users with no day-counted paid payment at all (trial-only
users in particular), are excluded from all three time-ordered triggers;
an active trial does not by itself exclude a user who also has a lapsed
day-counted payment (the sweep never consults trial state); and re-running
the sweep at the same instant fires nothing again: each trigger fires at
most once per expiry event. -/
theorem subscription_triggers_c7 (u : SubUser) (payments : List Payment)
    (a : Bool) (nowMs : Int) :
    ((computePaidUntil payments).1 = true →
      (subscriptionUserRun u payments a nowMs).msgs = [] ∧
      (subscriptionUserRun u payments a nowMs).leftSet = false) ∧
    ((computePaidUntil payments).2 = none →
      (subscriptionUserRun u payments a nowMs).msgs = [] ∧
      (subscriptionUserRun u payments a nowMs).leftSet = false) ∧
    (subscriptionUserRun (subscriptionUserRun u payments a nowMs).user payments
        (a && !(subscriptionUserRun u payments a nowMs).leftSet) nowMs =
      { user := (subscriptionUserRun u payments a nowMs).user, leftSet := false,
        msgs := [] }) := by
  refine ⟨?_, ?_, ?_⟩
  · intro hf
    rw [subscriptionUserRun_unfold]
    rw [if_pos hf]
    exact ⟨rfl, rfl⟩
  · intro hm
    rw [subscriptionUserRun_unfold]
    by_cases hf : (computePaidUntil payments).1 = true
    · rw [if_pos hf]
      exact ⟨rfl, rfl⟩
    · rw [if_neg hf, hm]
      exact ⟨rfl, rfl⟩
  · have hu := subscriptionUserRun_unfold u payments a nowMs
    generalize hg : subscriptionUserRun u payments a nowMs = r1 at hu ⊢
    obtain ⟨u1, l1, m1⟩ := r1
    show subscriptionUserRun u1 payments (a && !l1) nowMs =
      { user := u1, leftSet := false, msgs := [] }
    rcases hpum : (if (computePaidUntil payments).1 then none
        else (computePaidUntil payments).2 : Option Int) with _ | pu
    · rw [hpum] at hu
      simp only [SubUserResult.mk.injEq] at hu
      rw [subscriptionUserRun_unfold, hpum]
      simp only []
      rw [subUser_set_dates_eq u1 none none (by rw [hu.1]) (by rw [hu.1])]
    · rw [hpum] at hu
      simp only [SubUserResult.mk.injEq] at hu
      obtain ⟨hu1, hl1, _⟩ := hu
      have hp1 := subStep1_preserves
        { u with paid_until := some pu,
                 next_payment_reminder_at := some (pu - 2 * 86400000) } pu nowMs
      have hp2 := subStep2_preserves (subStep1
        { u with paid_until := some pu,
                 next_payment_reminder_at := some (pu - 2 * 86400000) }
        pu nowMs).1 a pu nowMs
      have hp3 := subStep3_preserves (subStep2 (subStep1
        { u with paid_until := some pu,
                 next_payment_reminder_at := some (pu - 2 * 86400000) }
        pu nowMs).1 a pu nowMs).1 pu nowMs
      have hpu1 : u1.paid_until = some pu := by
        rw [hu1]
        rw [hp3.2.2.1, hp2.2.2.1, hp1.2.2.1]
      have hnr1 : u1.next_payment_reminder_at = some (pu - 2 * 86400000) := by
        rw [hu1]
        rw [hp3.2.2.2.1, hp2.2.2.2.1, hp1.2.2.2.1]
      have hrem : pu - 2 * 86400000 ≤ nowMs ∧ nowMs < pu →
          alreadyReminded u1 (pu - 2 * 86400000) = true := by
        intro hw
        rw [hu1]
        rw [alreadyReminded_congr _ _ _ (hp3.2.2.2.2.1.trans hp2.2.2.2.2.1)]
        exact subStep1_after _ pu nowMs hw
      have hpro : pu ≤ nowMs ∧ nowMs < pu + 86400000 →
          alreadyPrompted u1 pu = true := by
        intro hw
        rw [hu1]
        rw [alreadyPrompted_congr _ _ _ hp3.2.2.2.2.2]
        exact subStep2_after _ a pu nowMs hw
      have hkick : pu + 86400000 ≤ nowMs →
          alreadyKicked u1 (pu + 86400000) = true := by
        intro hw
        rw [hu1]
        exact subStep3_after _ pu nowMs hw
      have hleft : l1 = (if pu ≤ nowMs ∧ nowMs < pu + 86400000 then a else false) := by
        rw [hl1]
        exact subStep2_left _ a pu nowMs
      have hs1 : subStep1 u1 pu nowMs = (u1, []) := by
        by_cases hw : pu - 2 * 86400000 ≤ nowMs ∧ nowMs < pu
        · exact subStep1_noop _ _ _ (Or.inr (hrem hw))
        · exact subStep1_noop _ _ _ (Or.inl hw)
      have hs2 : subStep2 u1 (a && !l1) pu nowMs =
          (u1, (if pu ≤ nowMs ∧ nowMs < pu + 86400000 then (a && !l1) else false),
            []) := by
        by_cases hw : pu ≤ nowMs ∧ nowMs < pu + 86400000
        · exact subStep2_noop _ _ _ _ (Or.inr (hpro hw))
        · exact subStep2_noop _ _ _ _ (Or.inl hw)
      have hs3 : subStep3 u1 pu nowMs = (u1, []) := by
        by_cases hw : pu + 86400000 ≤ nowMs
        · exact subStep3_noop _ _ _ (Or.inr (hkick hw))
        · exact subStep3_noop _ _ _ (Or.inl hw)
      have hu0 := subUser_set_dates_eq u1 (some pu) (some (pu - 2 * 86400000))
        hpu1 hnr1
      rw [subscriptionUserRun_unfold, hpum]
      simp only []
      rw [hu0, hs1]
      simp only []
      rw [hs2]
      simp only []
      rw [hs3]
      have hleft2 : (if pu ≤ nowMs ∧ nowMs < pu + 86400000 then (a && !l1) else false) =
          false := by
        by_cases hw : pu ≤ nowMs ∧ nowMs < pu + 86400000
        · rw [if_pos hw, hleft, if_pos hw]
          cases a <;> rfl
        · rw [if_neg hw]
      rw [hleft2]
      rfl

/-- Helper: a freshly put marker is found. -/
theorem hasMarker_put_self (l : List LedgerRow) (chId user : Nat) (r : Reason)
    (nowMs : Int) : hasMarker (putMarker l chId user r nowMs) chId user r = true := by
  unfold hasMarker putMarker
  rw [List.any_append]
  simp

/-- Helper: markers persist under appends. -/
theorem hasMarker_append (l l' : List LedgerRow) (chId user : Nat) (r : Reason)
    (h : hasMarker l chId user r = true) : hasMarker (l ++ l') chId user r = true := by
  unfold hasMarker at h ⊢
  rw [List.any_append, h]
  rfl

theorem hasMarker_put (l : List LedgerRow) (chId chId' user user' : Nat)
    (r r' : Reason) (nowMs : Int) (h : hasMarker l chId user r = true) :
    hasMarker (putMarker l chId' user' r' nowMs) chId user r = true :=
  hasMarker_append l _ chId user r h

/-- Helper: `sweepPenalize` only appends to the ledger. -/
theorem sweepPenalize_ledger_mono (chId : Nat) (users : List PenUser)
    (parts0 : List Participation) (pairs : List BuddyPair) (nowMs : Int)
    (acc : SweepAcc) (p : Participation) (tg day : Int)
    (c : Nat) (v : Nat) (r : Reason)
    (h : hasMarker acc.ledger c v r = true) :
    hasMarker (sweepPenalize chId users parts0 pairs nowMs acc p tg day).ledger
      c v r = true := by
  simp only [sweepPenalize]
  split_ifs with hm hk hk <;>
    first
      | exact hasMarker_put _ _ _ _ _ _ _ _ (hasMarker_put _ _ _ _ _ _ _ _ h)
      | exact hasMarker_put _ _ _ _ _ _ _ _ h

/-- Helper: `sweepCore` only appends to the ledger. -/
theorem sweepCore_ledger_mono (chId : Nat) (users : List PenUser)
    (parts0 : List Participation) (pairs : List BuddyPair)
    (checkins : List Checkin) (nowMs : Int) (acc : SweepAcc) (p : Participation)
    (u : PenUser) (tg : Int) (c v : Nat) (r : Reason)
    (h : hasMarker acc.ledger c v r = true) :
    hasMarker (sweepCore chId users parts0 pairs checkins nowMs acc p u tg).ledger
      c v r = true := by
  simp only [sweepCore]
  split_ifs with h1 h2
  · exact h
  · exact hasMarker_put _ _ _ _ _ _ _ _ h
  · exact sweepPenalize_ledger_mono _ _ _ _ _ _ _ _ _ _ _ _ h

/-- Helper: `sweepStep` only appends to the ledger. -/
theorem sweepStep_ledger_mono (chId : Nat) (users : List PenUser)
    (parts0 : List Participation) (pairs : List BuddyPair)
    (checkins : List Checkin) (nowMs : Int) (acc : SweepAcc) (p : Participation)
    (c v : Nat) (r : Reason) (h : hasMarker acc.ledger c v r = true) :
    hasMarker (sweepStep chId users parts0 pairs checkins nowMs acc p).ledger
      c v r = true := by
  unfold sweepStep
  cases hfu : findUser users p.user_id with
  | none => exact h
  | some u =>
    simp only []
    cases htg : u.telegram_user_id with
    | none => exact h
    | some tg =>
      simp only []
      by_cases hflex : p.wake_mode = WakeMode.flex
      · rw [if_pos hflex]
        exact h
      · rw [if_neg hflex]
        cases hwt : p.wake_time_local with
        | none => exact h
        | some w =>
          simp only []
          by_cases hcut : localMinuteOfDay nowMs u.tzOffsetMin < (w : Int) + 30
          · rw [if_pos hcut]
            exact h
          · rw [if_neg hcut]
            exact sweepCore_ledger_mono _ _ _ _ _ _ _ _ _ _ _ _ _ h

/-- Helper: the fold of `sweepStep` only appends to the ledger. -/
theorem sweepFold_ledger_mono (chId : Nat) (users : List PenUser)
    (parts0 : List Participation) (pairs : List BuddyPair)
    (checkins : List Checkin) (nowMs : Int) (parts : List Participation)
    (acc : SweepAcc) (c v : Nat) (r : Reason)
    (h : hasMarker acc.ledger c v r = true) :
    hasMarker (parts.foldl (sweepStep chId users parts0 pairs checkins nowMs)
      acc).ledger c v r = true := by
  induction parts generalizing acc with
  | nil => exact h
  | cons q qs ih =>
    rw [List.foldl_cons]
    exact ih _ (sweepStep_ledger_mono _ _ _ _ _ _ _ _ _ _ _ h)

/-- Helper: a fold whose steps all fix the accumulator fixes it. -/
theorem foldl_id {α β : Type} (f : β → α → β) (acc : β) (l : List α)
    (h : ∀ x ∈ l, f acc x = acc) : l.foldl f acc = acc := by
  induction l with
  | nil => rfl
  | cons x xs ih =>
    rw [List.foldl_cons, h x (List.mem_cons_self x xs)]
    exact ih (fun y hy => h y (List.mem_cons_of_mem x hy))

/-- Helper: when the prechecks pass, `sweepStep` runs `sweepCore`. -/
theorem sweepStep_run (chId : Nat) (users : List PenUser)
    (parts0 : List Participation) (pairs : List BuddyPair)
    (checkins : List Checkin) (nowMs : Int) (acc : SweepAcc) (p : Participation)
    (u : PenUser) (tg : Int) (w : Nat)
    (hfu : findUser users p.user_id = some u) (htg : u.telegram_user_id = some tg)
    (hflex : p.wake_mode ≠ WakeMode.flex) (hwt : p.wake_time_local = some w)
    (hcut : ¬localMinuteOfDay nowMs u.tzOffsetMin < (w : Int) + 30) :
    sweepStep chId users parts0 pairs checkins nowMs acc p =
      sweepCore chId users parts0 pairs checkins nowMs acc p u tg := by
  unfold sweepStep
  rw [hfu]
  simp only []
  rw [htg]
  simp only []
  rw [if_neg hflex, hwt]
  simp only []
  rw [if_neg hcut]

/-- Helper: when some precheck fails, `sweepStep` skips. -/
theorem sweepStep_skip (chId : Nat) (users : List PenUser)
    (parts0 : List Participation) (pairs : List BuddyPair)
    (checkins : List Checkin) (nowMs : Int) (acc : SweepAcc) (p : Participation)
    (h : (findUser users p.user_id = none) ∨
      (∃ u, findUser users p.user_id = some u ∧ u.telegram_user_id = none) ∨
      p.wake_mode = WakeMode.flex ∨ p.wake_time_local = none ∨
      (∃ u, findUser users p.user_id = some u ∧
        ∃ w : Nat, p.wake_time_local = some w ∧
          localMinuteOfDay nowMs u.tzOffsetMin < (w : Int) + 30)) :
    sweepStep chId users parts0 pairs checkins nowMs acc p = acc := by
  unfold sweepStep
  rcases h with h | ⟨u, hu, htg⟩ | h | h | ⟨u, hu, w, hw, hcut⟩
  · rw [h]
  · rw [hu]
    simp only []
    rw [htg]
  · cases hfu : findUser users p.user_id with
    | none => rfl
    | some u =>
      simp only []
      cases htg : u.telegram_user_id with
      | none => rfl
      | some tg =>
        simp only []
        rw [if_pos h]
  · cases hfu : findUser users p.user_id with
    | none => rfl
    | some u =>
      simp only []
      cases htg : u.telegram_user_id with
      | none => rfl
      | some tg =>
        simp only []
        by_cases hflex : p.wake_mode = WakeMode.flex
        · rw [if_pos hflex]
        · rw [if_neg hflex, h]
  · rw [hu]
    simp only []
    cases htg : u.telegram_user_id with
    | none => rfl
    | some tg =>
      simp only []
      by_cases hflex : p.wake_mode = WakeMode.flex
      · rw [if_pos hflex]
      · rw [if_neg hflex, hw]
        simp only []
        rw [if_pos hcut]

/-- Helper: `sweepPenalize` always puts the day's notice marker. -/
theorem sweepPenalize_marker (chId : Nat) (users : List PenUser)
    (parts0 : List Participation) (pairs : List BuddyPair) (nowMs : Int)
    (acc : SweepAcc) (p : Participation) (tg day : Int) :
    hasMarker (sweepPenalize chId users parts0 pairs nowMs acc p tg day).ledger
      chId p.user_id (.noticeOn day) = true := by
  simp only [sweepPenalize]
  split_ifs <;> exact hasMarker_put_self _ _ _ _ _

/-- Helper: after `sweepCore`, the day's notice marker holds. -/
theorem sweepCore_marker (chId : Nat) (users : List PenUser)
    (parts0 : List Participation) (pairs : List BuddyPair)
    (checkins : List Checkin) (nowMs : Int) (acc : SweepAcc) (p : Participation)
    (u : PenUser) (tg : Int) :
    hasMarker (sweepCore chId users parts0 pairs checkins nowMs acc p u tg).ledger
      chId p.user_id
      (.noticeOn (utcRangeForLocalDay nowMs u.tzOffsetMin).localDay) = true := by
  simp only [sweepCore]
  split_ifs with h1 h2
  · exact h1
  · exact hasMarker_put_self _ _ _ _ _
  · exact sweepPenalize_marker _ _ _ _ _ _ _ _ _

/-- Helper: `sweepCore` with the day's notice marker already present is a
no-op. -/
theorem sweepCore_noop (chId : Nat) (users : List PenUser)
    (parts0 : List Participation) (pairs : List BuddyPair)
    (checkins : List Checkin) (nowMs : Int) (acc : SweepAcc) (p : Participation)
    (u : PenUser) (tg : Int)
    (h : hasMarker acc.ledger chId p.user_id
      (.noticeOn (utcRangeForLocalDay nowMs u.tzOffsetMin).localDay) = true) :
    sweepCore chId users parts0 pairs checkins nowMs acc p u tg = acc := by
  simp only [sweepCore]
  rw [if_pos h]

/-- Helper: after a processed (prechecks-passing) step, the user's notice
marker for the day holds. -/
theorem sweepStep_marker (chId : Nat) (users : List PenUser)
    (parts0 : List Participation) (pairs : List BuddyPair)
    (checkins : List Checkin) (nowMs : Int) (acc : SweepAcc) (p : Participation)
    (u : PenUser) (tg : Int) (w : Nat)
    (hfu : findUser users p.user_id = some u) (htg : u.telegram_user_id = some tg)
    (hflex : p.wake_mode ≠ WakeMode.flex) (hwt : p.wake_time_local = some w)
    (hcut : ¬localMinuteOfDay nowMs u.tzOffsetMin < (w : Int) + 30) :
    hasMarker (sweepStep chId users parts0 pairs checkins nowMs acc p).ledger
      chId p.user_id
      (.noticeOn (utcRangeForLocalDay nowMs u.tzOffsetMin).localDay) = true := by
  rw [sweepStep_run chId users parts0 pairs checkins nowMs acc p u tg w
    hfu htg hflex hwt hcut]
  exact sweepCore_marker _ _ _ _ _ _ _ _ _ _

/-- Helper: after the whole fold, every processed participation's user has
the day's notice marker. -/
theorem sweepFold_marker (chId : Nat) (users : List PenUser)
    (parts0 : List Participation) (pairs : List BuddyPair)
    (checkins : List Checkin) (nowMs : Int) (parts : List Participation)
    (acc : SweepAcc) (p : Participation) (hp : p ∈ parts)
    (u : PenUser) (tg : Int) (w : Nat)
    (hfu : findUser users p.user_id = some u) (htg : u.telegram_user_id = some tg)
    (hflex : p.wake_mode ≠ WakeMode.flex) (hwt : p.wake_time_local = some w)
    (hcut : ¬localMinuteOfDay nowMs u.tzOffsetMin < (w : Int) + 30) :
    hasMarker (parts.foldl (sweepStep chId users parts0 pairs checkins nowMs)
      acc).ledger chId p.user_id
      (.noticeOn (utcRangeForLocalDay nowMs u.tzOffsetMin).localDay) = true := by
  induction parts generalizing acc with
  | nil => exact absurd hp (by simp)
  | cons q qs ih =>
    rw [List.foldl_cons]
    rcases List.mem_cons.mp hp with hq | hq
    · subst hq
      exact sweepFold_ledger_mono _ _ _ _ _ _ _ _ _ _ _
        (sweepStep_marker _ _ _ _ _ _ _ _ _ _ _ hfu htg hflex hwt hcut)
    · exact ih _ hq

/-- Helper: a row of the kick update is an original row or has `left_at`
set to the sweep instant. -/
theorem mem_kick_map (l : List Participation) (chId : Nat) (toKick : List Nat)
    (nowMs : Int) (q : Participation)
    (h : q ∈ l.map (fun x =>
      if x.challenge_id = chId ∧ x.user_id ∈ toKick ∧ x.left_at = none then
        { x with left_at := some nowMs }
      else x)) :
    q ∈ l ∨ q.left_at = some nowMs := by
  obtain ⟨x, hx, hfx⟩ := List.mem_map.mp h
  by_cases hc : x.challenge_id = chId ∧ x.user_id ∈ toKick ∧ x.left_at = none
  · right
    rw [← hfx, if_pos hc]
  · left
    rw [← hfx, if_neg hc]
    exact hx

/-- Helper: a participation row of the sweep output is an original row or
was stopped at the sweep instant. -/
theorem sweepStep_parts (chId : Nat) (users : List PenUser)
    (parts0 : List Participation) (pairs : List BuddyPair)
    (checkins : List Checkin) (nowMs : Int) (acc : SweepAcc) (p : Participation)
    (q : Participation)
    (h : q ∈ (sweepStep chId users parts0 pairs checkins nowMs acc p).participations) :
    q ∈ acc.participations ∨ q.left_at = some nowMs := by
  have hcore : ∀ u tg,
      q ∈ (sweepCore chId users parts0 pairs checkins nowMs acc p u tg).participations →
      q ∈ acc.participations ∨ q.left_at = some nowMs := by
    intro u tg hq
    simp only [sweepCore, sweepPenalize] at hq
    split_ifs at hq <;>
      first
        | exact Or.inl hq
        | exact mem_kick_map _ _ _ _ _ hq
  unfold sweepStep at h
  cases hfu : findUser users p.user_id with
  | none =>
    rw [hfu] at h
    exact Or.inl h
  | some u =>
    rw [hfu] at h
    simp only [] at h
    cases htg : u.telegram_user_id with
    | none =>
      rw [htg] at h
      exact Or.inl h
    | some tg =>
      rw [htg] at h
      simp only [] at h
      by_cases hflex : p.wake_mode = WakeMode.flex
      · rw [if_pos hflex] at h
        exact Or.inl h
      · rw [if_neg hflex] at h
        cases hwt : p.wake_time_local with
        | none =>
          rw [hwt] at h
          exact Or.inl h
        | some w =>
          rw [hwt] at h
          simp only [] at h
          by_cases hcut : localMinuteOfDay nowMs u.tzOffsetMin < (w : Int) + 30
          · rw [if_pos hcut] at h
            exact Or.inl h
          · rw [if_neg hcut] at h
            exact hcore u tg h

/-- Helper: the fold version of `sweepStep_parts`. -/
theorem sweepFold_parts (chId : Nat) (users : List PenUser)
    (parts0 : List Participation) (pairs : List BuddyPair)
    (checkins : List Checkin) (nowMs : Int) (parts : List Participation)
    (acc : SweepAcc) (q : Participation)
    (h : q ∈ (parts.foldl (sweepStep chId users parts0 pairs checkins nowMs)
      acc).participations) :
    q ∈ acc.participations ∨ q.left_at = some nowMs := by
  induction parts generalizing acc with
  | nil => exact Or.inl h
  | cons x xs ih =>
    rw [List.foldl_cons] at h
    rcases ih _ h with hq | hq
    · exact sweepStep_parts _ _ _ _ _ _ _ _ _ hq
    · exact Or.inr hq

/-- The acc-independent skip conditions of the fines-paid follow-up:
the referenced payment is absent or not `paid`, or the user has no telegram
id. -/
def paySkip (chId : Nat) (users : List PenUser) (payments : List PenPayment)
    (uid pid : Nat) : Prop :=
  (payments.find? (fun p =>
      decide (p.challenge_id = chId ∧ p.user_id = uid ∧
        p.provider_payment_id = pid)) = none ∨
    (∃ pay, payments.find? (fun p =>
      decide (p.challenge_id = chId ∧ p.user_id = uid ∧
        p.provider_payment_id = pid)) = some pay ∧ pay.status ≠ "paid")) ∨
  (findUser users uid).bind (fun u => u.telegram_user_id) = none

/-- Helper: `payStep` only appends to the ledger. -/
theorem payStep_ledger_mono (chId : Nat) (users : List PenUser)
    (payments : List PenPayment) (nowMs : Int) (acc : SweepAcc) (e : LedgerRow)
    (c v : Nat) (r : Reason) (h : hasMarker acc.ledger c v r = true) :
    hasMarker (payStep chId users payments nowMs acc e).ledger c v r = true := by
  unfold payStep
  cases hr : e.reason with
  | payIntent day pid amount =>
    simp only []
    split_ifs with h1
    · exact h
    · cases hp : payments.find? (fun p =>
        decide (p.challenge_id = chId ∧ p.user_id = e.user_id ∧
          p.provider_payment_id = pid)) with
      | none => exact h
      | some pay =>
        simp only []
        split_ifs with h2
        · exact h
        · cases htg : (findUser users e.user_id).bind (fun u => u.telegram_user_id) with
          | none => exact h
          | some tg => exact hasMarker_put _ _ _ _ _ _ _ _ h
  | missOn day => exact h
  | noticeOn day => exact h
  | payNotified day pid => exact h
  | otherReason t => exact h

/-- Helper: the fold of `payStep` only appends to the ledger. -/
theorem payFold_ledger_mono (chId : Nat) (users : List PenUser)
    (payments : List PenPayment) (nowMs : Int) (l : List LedgerRow)
    (acc : SweepAcc) (c v : Nat) (r : Reason)
    (h : hasMarker acc.ledger c v r = true) :
    hasMarker (l.foldl (payStep chId users payments nowMs) acc).ledger c v r =
      true := by
  induction l generalizing acc with
  | nil => exact h
  | cons x xs ih =>
    rw [List.foldl_cons]
    exact ih _ (payStep_ledger_mono _ _ _ _ _ _ _ _ _ h)

/-- Helper: after a processed pay-intent row, either its notified marker
holds or the acc-independent skip conditions hold. -/
theorem payStep_after (chId : Nat) (users : List PenUser)
    (payments : List PenPayment) (nowMs : Int) (acc : SweepAcc) (e : LedgerRow)
    (day : Int) (pid : Nat) (amount : Int)
    (hr : e.reason = .payIntent day pid amount) :
    hasMarker (payStep chId users payments nowMs acc e).ledger chId e.user_id
      (.payNotified day pid) = true ∨
    paySkip chId users payments e.user_id pid := by
  unfold payStep
  rw [hr]
  simp only []
  split_ifs with h1
  · exact Or.inl h1
  · cases hp : payments.find? (fun p =>
      decide (p.challenge_id = chId ∧ p.user_id = e.user_id ∧
        p.provider_payment_id = pid)) with
    | none => exact Or.inr (Or.inl (Or.inl hp))
    | some pay =>
      simp only []
      split_ifs with h2
      · exact Or.inr (Or.inl (Or.inr ⟨pay, hp, h2⟩))
      · cases htg : (findUser users e.user_id).bind (fun u => u.telegram_user_id) with
        | none => exact Or.inr (Or.inr htg)
        | some tg =>
          simp only []
          exact Or.inl (hasMarker_put_self _ _ _ _ _)

/-- Helper: a pay-intent row whose marker or skip condition holds is a
no-op. -/
theorem payStep_noop (chId : Nat) (users : List PenUser)
    (payments : List PenPayment) (nowMs : Int) (acc : SweepAcc) (e : LedgerRow)
    (day : Int) (pid : Nat) (amount : Int)
    (hr : e.reason = .payIntent day pid amount)
    (h : hasMarker acc.ledger chId e.user_id (.payNotified day pid) = true ∨
      paySkip chId users payments e.user_id pid) :
    payStep chId users payments nowMs acc e = acc := by
  unfold payStep
  rw [hr]
  simp only []
  rcases h with h | (hp | ⟨pay, hp, hs⟩) | htg
  · rw [if_pos h]
  · split_ifs with h1
    · rfl
    · rw [hp]
  · split_ifs with h1
    · rfl
    · rw [hp]
      simp only []
      rw [if_pos hs]
  · split_ifs with h1
    · rfl
    · cases hfp : payments.find? (fun p =>
        decide (p.challenge_id = chId ∧ p.user_id = e.user_id ∧
          p.provider_payment_id = pid)) with
      | none => rfl
      | some pay =>
        simp only []
        split_ifs with h2
        · rfl
        · rw [htg]

/-- Helper: non-pay-intent rows are no-ops of the follow-up loop. -/
theorem payStep_other (chId : Nat) (users : List PenUser)
    (payments : List PenPayment) (nowMs : Int) (acc : SweepAcc) (e : LedgerRow)
    (hr : e.reason.isPayIntent = false) :
    payStep chId users payments nowMs acc e = acc := by
  unfold payStep
  cases hre : e.reason with
  | payIntent day pid amount =>
    rw [hre] at hr
    exact absurd hr (by simp [Reason.isPayIntent])
  | missOn day => rfl
  | noticeOn day => rfl
  | payNotified day pid => rfl
  | otherReason t => rfl

/-- Helper: `payStep` does not add or remove pay-intent rows. -/
theorem payStep_intents (chId : Nat) (users : List PenUser)
    (payments : List PenPayment) (nowMs : Int) (acc : SweepAcc) (e : LedgerRow) :
    (payStep chId users payments nowMs acc e).ledger.filter (intentRow chId nowMs) =
      acc.ledger.filter (intentRow chId nowMs) := by
  unfold payStep
  cases hr : e.reason with
  | payIntent day pid amount =>
    simp only []
    split_ifs with h1
    · rfl
    · cases hp : payments.find? (fun p =>
        decide (p.challenge_id = chId ∧ p.user_id = e.user_id ∧
          p.provider_payment_id = pid)) with
      | none => rfl
      | some pay =>
        simp only []
        split_ifs with h2
        · rfl
        · cases htg : (findUser users e.user_id).bind (fun u => u.telegram_user_id) with
          | none => rfl
          | some tg =>
            simp only [putMarker]
            rw [List.filter_append]
            simp [intentRow, Reason.isPayIntent]
  | missOn day => rfl
  | noticeOn day => rfl
  | payNotified day pid => rfl
  | otherReason t => rfl

/-- Helper: the whole follow-up fold keeps the pay-intent rows unchanged. -/
theorem payFold_intents (chId : Nat) (users : List PenUser)
    (payments : List PenPayment) (nowMs : Int) (l : List LedgerRow)
    (acc : SweepAcc) :
    ((l.foldl (payStep chId users payments nowMs) acc).ledger).filter
      (intentRow chId nowMs) = acc.ledger.filter (intentRow chId nowMs) := by
  induction l generalizing acc with
  | nil => rfl
  | cons x xs ih =>
    rw [List.foldl_cons, ih _, payStep_intents]

/-- Helper: after the whole follow-up fold, every processed pay-intent row
has its notified marker or a skip condition. -/
theorem payFold_after (chId : Nat) (users : List PenUser)
    (payments : List PenPayment) (nowMs : Int) (l : List LedgerRow)
    (acc : SweepAcc) (e : LedgerRow) (he : e ∈ l) (day : Int) (pid : Nat)
    (amount : Int) (hr : e.reason = .payIntent day pid amount) :
    hasMarker ((l.foldl (payStep chId users payments nowMs) acc).ledger) chId
      e.user_id (.payNotified day pid) = true ∨
    paySkip chId users payments e.user_id pid := by
  induction l generalizing acc with
  | nil => exact absurd he (by simp)
  | cons x xs ih =>
    rw [List.foldl_cons]
    rcases List.mem_cons.mp he with hx | hx
    · subst hx
      rcases payStep_after chId users payments nowMs acc e day pid amount hr with
        h | h
      · exact Or.inl (payFold_ledger_mono _ _ _ _ _ _ _ _ _ h)
      · exact Or.inr h
    · exact ih _ hx

/-- Helper: the follow-up loop never touches participations. -/
theorem payStep_participations (chId : Nat) (users : List PenUser)
    (payments : List PenPayment) (nowMs : Int) (acc : SweepAcc) (e : LedgerRow) :
    (payStep chId users payments nowMs acc e).participations =
      acc.participations := by
  unfold payStep
  cases hr : e.reason with
  | payIntent day pid amount =>
    simp only []
    split_ifs with h1
    · rfl
    · cases hp : payments.find? (fun p =>
        decide (p.challenge_id = chId ∧ p.user_id = e.user_id ∧
          p.provider_payment_id = pid)) with
      | none => rfl
      | some pay =>
        simp only []
        split_ifs with h2
        · rfl
        · cases htg : (findUser users e.user_id).bind
            (fun u => u.telegram_user_id) with
          | none => rfl
          | some tg => rfl
  | missOn day => rfl
  | noticeOn day => rfl
  | payNotified day pid => rfl
  | otherReason t => rfl

theorem payFold_participations (chId : Nat) (users : List PenUser)
    (payments : List PenPayment) (nowMs : Int) (l : List LedgerRow)
    (acc : SweepAcc) :
    ((l.foldl (payStep chId users payments nowMs) acc).participations) =
      acc.participations := by
  induction l generalizing acc with
  | nil => rfl
  | cons x xs ih =>
    rw [List.foldl_cons, ih, payStep_participations]

/-- Helper: a matching pay-intent reason has the pay-intent shape. -/
theorem isPayIntent_shape (r : Reason) (h : r.isPayIntent = true) :
    ∃ day : Int, ∃ pid : Nat, ∃ amount : Int, r = .payIntent day pid amount := by
  cases r with
  | payIntent day pid amount => exact ⟨day, pid, amount, rfl⟩
  | missOn day => exact absurd h (by simp [Reason.isPayIntent])
  | noticeOn day => exact absurd h (by simp [Reason.isPayIntent])
  | payNotified day pid => exact absurd h (by simp [Reason.isPayIntent])
  | otherReason t => exact absurd h (by simp [Reason.isPayIntent])

/-- Helper: a penalty run over a state in which every eligible participant
already has the day's notice marker and every recent pay-intent row is
already notified or skippable changes nothing and sends nothing. -/
theorem penaltiesRun_noop (s : PenState) (chId : Nat) (nowMs : Int)
    (hnotice : ∀ p ∈ s.participations.filter
        (fun p => decide (p.challenge_id = chId ∧ p.left_at = none)),
      ∀ u : PenUser, ∀ tg : Int, ∀ w : Nat, findUser s.users p.user_id = some u →
        u.telegram_user_id = some tg → p.wake_mode ≠ WakeMode.flex →
        p.wake_time_local = some w →
        ¬localMinuteOfDay nowMs u.tzOffsetMin < (w : Int) + 30 →
        hasMarker s.ledger chId p.user_id
          (.noticeOn (utcRangeForLocalDay nowMs u.tzOffsetMin).localDay) = true)
    (hpay : ∀ e ∈ s.ledger.filter (intentRow chId nowMs),
      ∀ day : Int, ∀ pid : Nat, ∀ amount : Int,
        e.reason = .payIntent day pid amount →
        hasMarker s.ledger chId e.user_id (.payNotified day pid) = true ∨
        paySkip chId s.users s.payments e.user_id pid) :
    penaltiesRun s chId nowMs = (s, ([] : List PenMsg)) := by
  have hmain : sweepMain s chId nowMs =
      (⟨s.participations, s.ledger, []⟩ : SweepAcc) := by
    simp only [sweepMain]
    refine foldl_id _ _ _ ?_
    intro p hp
    cases hfu : findUser s.users p.user_id with
    | none => exact sweepStep_skip _ _ _ _ _ _ _ _ (Or.inl hfu)
    | some u =>
      cases htg : u.telegram_user_id with
      | none =>
        exact sweepStep_skip _ _ _ _ _ _ _ _ (Or.inr (Or.inl ⟨u, hfu, htg⟩))
      | some tg =>
        by_cases hflex : p.wake_mode = WakeMode.flex
        · exact sweepStep_skip _ _ _ _ _ _ _ _ (Or.inr (Or.inr (Or.inl hflex)))
        · cases hwt : p.wake_time_local with
          | none =>
            exact sweepStep_skip _ _ _ _ _ _ _ _
              (Or.inr (Or.inr (Or.inr (Or.inl hwt))))
          | some w =>
            by_cases hcut : localMinuteOfDay nowMs u.tzOffsetMin < (w : Int) + 30
            · exact sweepStep_skip _ _ _ _ _ _ _ _
                (Or.inr (Or.inr (Or.inr (Or.inr ⟨u, hfu, w, hwt, hcut⟩))))
            · rw [sweepStep_run chId s.users _ s.buddy_pairs s.checkins nowMs
                ⟨s.participations, s.ledger, []⟩ p u tg w hfu htg hflex hwt hcut]
              exact sweepCore_noop _ _ _ _ _ _ _ _ _ _
                (hnotice p hp u tg w hfu htg hflex hwt hcut)
  have hpayl : payLoop chId s.users s.payments nowMs
      (⟨s.participations, s.ledger, []⟩ : SweepAcc) =
      (⟨s.participations, s.ledger, []⟩ : SweepAcc) := by
    unfold payLoop
    refine foldl_id _ _ _ ?_
    intro e he
    have hint : e.reason.isPayIntent = true := by
      have hpred := (List.mem_filter.mp he).2
      simp only [intentRow, Bool.and_eq_true] at hpred
      exact hpred.1.2
    obtain ⟨day, pid, amount, hre⟩ := isPayIntent_shape e.reason hint
    exact payStep_noop chId s.users s.payments nowMs _ e day pid amount hre
      (hpay e he day pid amount hre)
  simp only [penaltiesRun]
  rw [hmain, hpayl]

/-- C6.  Running the Penalty Escalation Sweep twice for the same instant
over the same records produces the same final state as running it once, and
the second run sends no notifications: every participant processed by the
first run already holds the day's notice-sent marker (and kicked
participations are no longer scanned), so the second run performs no state
change and sends no message. -/
theorem sweep_idempotent_c6 (s : PenState) (chId : Nat) (nowMs : Int) :
    penaltiesRun (penaltiesRun s chId nowMs).1 chId nowMs =
      ((penaltiesRun s chId nowMs).1, ([] : List PenMsg)) := by
  apply penaltiesRun_noop
  · intro p hp u tg w hfu htg hflex hwt hcut
    obtain ⟨hmem, hpred⟩ := List.mem_filter.mp hp
    rw [decide_eq_true_eq] at hpred
    have hmem1 : p ∈ (sweepMain s chId nowMs).participations := by
      have h1 : p ∈ (payLoop chId s.users s.payments nowMs
          (sweepMain s chId nowMs)).participations := hmem
      rw [payLoop, payFold_participations] at h1
      exact h1
    have hmem0 : p ∈ s.participations := by
      simp only [sweepMain] at hmem1
      rcases sweepFold_parts _ _ _ _ _ _ _ _ _ hmem1 with h | h
      · exact h
      · rw [hpred.2] at h
        exact absurd h (by simp)
    have hparts1 : p ∈ s.participations.filter
        (fun p => decide (p.challenge_id = chId ∧ p.left_at = none)) :=
      List.mem_filter.mpr ⟨hmem0, decide_eq_true hpred⟩
    have hm1 : hasMarker (sweepMain s chId nowMs).ledger chId p.user_id
        (.noticeOn (utcRangeForLocalDay nowMs u.tzOffsetMin).localDay) = true := by
      simp only [sweepMain]
      exact sweepFold_marker _ _ _ _ _ _ _ _ p hparts1 u tg w hfu htg hflex hwt hcut
    have hm2 : hasMarker (payLoop chId s.users s.payments nowMs
        (sweepMain s chId nowMs)).ledger chId p.user_id
        (.noticeOn (utcRangeForLocalDay nowMs u.tzOffsetMin).localDay) = true := by
      rw [payLoop]
      exact payFold_ledger_mono _ _ _ _ _ _ _ _ _ hm1
    exact hm2
  · intro e he day pid amount hre
    have he2 : e ∈ (((sweepMain s chId nowMs).ledger.filter
        (intentRow chId nowMs)).foldl (payStep chId s.users s.payments nowMs)
        (sweepMain s chId nowMs)).ledger.filter (intentRow chId nowMs) := he
    rw [payFold_intents] at he2
    have hres := payFold_after chId s.users s.payments nowMs
      ((sweepMain s chId nowMs).ledger.filter (intentRow chId nowMs))
      (sweepMain s chId nowMs) e he2 day pid amount hre
    exact hres

/-- C2 scenario state on day `N` of the miss streak: one fixed-wake
participant (user 10, wake 07:00, GMT+03:00, telegram 100) paired with a
flex-mode buddy (user 20, telegram 200), with miss markers recorded on each
of the `N - 1` previous local days and no group tap on any day. -/
def c2State (N : Nat) : PenState :=
  { participations :=
      [⟨1, 10, 5, .fixed, some 420, none⟩, ⟨2, 20, 5, .flex, none, none⟩],
    users := [⟨10, some 100, 180⟩, ⟨20, some 200, 180⟩],
    ledger := (List.range (N - 1)).map
      (fun i => ⟨10, 5, .missOn (i : Int), 0⟩),
    checkins := [],
    buddy_pairs := [⟨1, 2, 5, true⟩],
    payments := [] }

/-- The sweep instant of day `N` (local day index `N - 1`, local 08:00,
past wake+30). -/
def c2Now (N : Nat) : Int :=
  ((N : Int) - 1) * 86400000 + 18000000

/-- C2.  Escalation monotonicity: with miss markers on each of `N`
consecutive local days (none of them group-tapped), the sweep on day `N`
computes level `N = min(N, 4)`; levels 1-3 produce the fixed
(squats, fine) pairs (50,150), (100,300), (200,500) and leave the
participations active; on day 4 the sweep sets `left_at = now` on the
participant and on their active buddy partner and notifies both, after
which any further sweep run sends nothing and changes nothing (the sweep
only scans participations with `left_at` null). -/
theorem escalation_c2 (N : Nat) (h1 : 1 ≤ N) (h4 : N ≤ 4) (nowAfter : Int) :
    penaltyInfo 1 = (50, 150, false) ∧ penaltyInfo 2 = (100, 300, false) ∧
    penaltyInfo 3 = (200, 500, false) ∧ penaltyInfo 4 = (0, 0, true) ∧
    (N ≤ 3 →
      (penaltiesRun (c2State N) 5 (c2Now N)).2 =
        [PenMsg.notice 100 (min N 4) (penaltyInfo (min N 4)).1
          (penaltyInfo (min N 4)).2.1] ∧
      (penaltiesRun (c2State N) 5 (c2Now N)).1.participations =
        (c2State N).participations) ∧
    (N = 4 →
      (penaltiesRun (c2State N) 5 (c2Now N)).2 =
        [PenMsg.kick 100, PenMsg.kick 200] ∧
      (penaltiesRun (c2State N) 5 (c2Now N)).1.participations =
        [⟨1, 10, 5, .fixed, some 420, some (c2Now 4)⟩,
         ⟨2, 20, 5, .flex, none, some (c2Now 4)⟩] ∧
      penaltiesRun (penaltiesRun (c2State 4) 5 (c2Now 4)).1 5 nowAfter =
        ((penaltiesRun (c2State 4) 5 (c2Now 4)).1, ([] : List PenMsg))) := by
  refine ⟨by decide, by decide, by decide, by decide, ?_, ?_⟩
  · intro h3
    interval_cases N
    · exact ⟨by decide, by decide⟩
    · exact ⟨by decide, by decide⟩
    · exact ⟨by decide, by decide⟩
  · intro hN
    subst hN
    refine ⟨by decide, by decide, ?_⟩
    rfl

/-- C2 witness: on day 4 the sweep kicks both the participant and the
buddy. -/
theorem escalation_c2_witness :
    (penaltiesRun (c2State 4) 5 (c2Now 4)).2 =
      [PenMsg.kick 100, PenMsg.kick 200] :=
  ((escalation_c2 4 (by decide) (by decide) 0).2.2.2.2.2 rfl).1

/-- C7 witness: a forever-plan user gets none of the three triggers. -/
theorem subscription_triggers_c7_witness :
    (subscriptionUserRun ⟨1, 100, none, none, none, none, none⟩
        [⟨0, some "life", none, "paid"⟩] true 2635200000).msgs = [] ∧
    (subscriptionUserRun ⟨1, 100, none, none, none, none, none⟩
        [⟨0, some "life", none, "paid"⟩] true 2635200000).leftSet = false :=
  (subscription_triggers_c7 ⟨1, 100, none, none, none, none, none⟩
    [⟨0, some "life", none, "paid"⟩] true 2635200000).1 (by decide)

end EarlyRise
